import Mathlib

/-!
Mic-1 micro-cycle emulator (`Emulador.c`)

A shallow embedding of the micro-cycle engine and of the program loader of
`Emulador.c`, and the properties of its decoder, buses, ALU, shifter, memory
unit, next-address resolver and loader.

Conventions of the embedding

* `byte` (`uint8_t`), `palavra` (`uint32_t`) and `microinstrucao` (`uint64_t`)
  values are natural numbers; every C operation that can leave the range of its
  type is followed by the explicit reduction the C type performs.
* The global variables of the program are the fields of `Estado`.
* `memoria[i]` with `i` outside the array and `armazenamento[MPC]` with `MPC`
  outside the control store are undefined in C: the embedding returns `none`.
* `memcpy` between a `palavra` and four bytes of `memoria` uses the byte order of
  the host; the byte order is the parameter `Ordem`.
* `exibir_processos` only prints and waits for a key: it writes no variable of the
  machine and is left out of the cycle.
* A file is its size and its content. `carregar_programa` records the fatal exit
  it takes, if any, and every `fread` into `memoria` with the offset and the
  number of bytes stored, so that stores past the end of the array are visible.
-/

namespace Mic1

/-! ## Constants and machine state -/

/-- Number of entries of the control store (`#define TAM_MICROPROG 512`). -/
def TAM_MICROPROG : Nat := 512

/-- Capacity of main memory in bytes (`#define TAM_MEMORIA 100000000`). -/
def TAM_MEMORIA : Nat := 100000000

/-- Size of the initialisation region (`#define TAM_PROGRAMA_INICIAL 20`). -/
def TAM_PROGRAMA_INICIAL : Nat := 20

/-- Byte order of the host, which decides what `memcpy` of a `palavra` means. -/
inductive Ordem where
  | little
  | big
  deriving DecidableEq, Repr

/-- The global variables of `Emulador.c`. -/
structure Estado where
  MAR : Nat
  MDR : Nat
  PC : Nat
  MBR : Nat
  SP : Nat
  LV : Nat
  TOS : Nat
  OPC : Nat
  CPP : Nat
  H : Nat
  MIR : Nat
  MPC : Nat
  barramento_B : Nat
  barramento_C : Nat
  N : Nat
  Z : Nat
  MIR_B : Nat
  MIR_Operacao : Nat
  MIR_Deslocador : Nat
  MIR_MEM : Nat
  MIR_pulo : Nat
  MIR_C : Nat
  armazenamento : Nat → Nat
  memoria : Nat → Nat

/-- The state at program start: every scalar global is initialised to `0`; the
control store and the memory hold what the loaders put there. -/
def estadoInicial (arm : Nat → Nat) (mem : Nat → Nat) : Estado :=
  { MAR := 0, MDR := 0, PC := 0, MBR := 0, SP := 0, LV := 0, TOS := 0, OPC := 0,
    CPP := 0, H := 0, MIR := 0, MPC := 0, barramento_B := 0, barramento_C := 0,
    N := 0, Z := 0, MIR_B := 0, MIR_Operacao := 0, MIR_Deslocador := 0,
    MIR_MEM := 0, MIR_pulo := 0, MIR_C := 0, armazenamento := arm, memoria := mem }

/-- Every variable holds a value of its C type: words below `2^32`, bytes below
`2^8`, microinstructions below `2^64`. -/
def Estado.tipado (s : Estado) : Prop :=
  s.MAR < 4294967296 ∧ s.MDR < 4294967296 ∧ s.PC < 4294967296 ∧ s.MBR < 256 ∧
  s.SP < 4294967296 ∧ s.LV < 4294967296 ∧ s.TOS < 4294967296 ∧
  s.OPC < 4294967296 ∧ s.CPP < 4294967296 ∧ s.H < 4294967296 ∧
  s.MIR < 18446744073709551616 ∧ s.MPC < 4294967296 ∧
  s.barramento_B < 4294967296 ∧ s.barramento_C < 4294967296 ∧
  s.N < 256 ∧ s.Z < 256 ∧ s.MIR_B < 256 ∧ s.MIR_Operacao < 256 ∧
  s.MIR_Deslocador < 256 ∧ s.MIR_MEM < 256 ∧ s.MIR_pulo < 256 ∧
  s.MIR_C < 4294967296 ∧ (∀ i, s.armazenamento i < 18446744073709551616) ∧
  (∀ a, s.memoria a < 256)

/-! ## Fixed-width arithmetic -/

/-- Conversion `(int32_t) x` of a `palavra`. -/
def paraInt32 (x : Nat) : Int :=
  if x % 4294967296 < 2147483648 then ((x % 4294967296 : Nat) : Int)
  else ((x % 4294967296 : Nat) : Int) - 4294967296

/-- Conversion `(palavra) i` of a signed value: reduction modulo `2^32`. -/
def paraPalavra (i : Int) : Nat := (i % 4294967296).toNat

/-- Unsigned 32-bit addition `a + b`. -/
def soma32 (a b : Nat) : Nat := (a + b) % 4294967296

/-- Unsigned 32-bit subtraction `a - b`. -/
def sub32 (a b : Nat) : Nat := (a + (4294967296 - b % 4294967296)) % 4294967296

/-- Unsigned 32-bit complement `~a`. -/
def nao32 (a : Nat) : Nat := 4294967295 - a % 4294967296

/-! ## Decoder -/

/-- Model of `decodificar_microinstrucao`: the seven fields of `MIR`. The masked
values fit the `byte` and `palavra` variables they are stored in. -/
def decodificar_microinstrucao (s : Estado) : Estado :=
  { s with
    MIR_B := s.MIR &&& 0b1111
    MIR_MEM := (s.MIR >>> 4) &&& 0b111
    MIR_C := (s.MIR >>> 7) &&& 0b111111111
    MIR_Operacao := (s.MIR >>> 16) &&& 0b111111
    MIR_Deslocador := (s.MIR >>> 22) &&& 0b11
    MIR_pulo := (s.MIR >>> 24) &&& 0b111
    MPC := (s.MIR >>> 27) &&& 0b111111111 }

/-! ## B bus -/

/-- The value the `switch (MIR_B)` of `atribuir_barramento_B` assigns (the
`case` labels in order, then `default`). -/
def valorBarramentoB (s : Estado) : Nat :=
  if s.MIR_B = 0 then s.MDR
  else if s.MIR_B = 1 then s.PC
  else if s.MIR_B = 2 then
    (if s.MBR &&& 0b10000000 ≠ 0 then s.MBR ||| 0xFFFFFF00 else s.MBR)
  else if s.MIR_B = 3 then s.MBR
  else if s.MIR_B = 4 then s.SP
  else if s.MIR_B = 5 then s.LV
  else if s.MIR_B = 6 then s.CPP
  else if s.MIR_B = 7 then s.TOS
  else if s.MIR_B = 8 then s.OPC
  else 0xFFFFFFFF

/-- Model of `atribuir_barramento_B`. -/
def atribuir_barramento_B (s : Estado) : Estado :=
  { s with barramento_B := valorBarramentoB s }

/-! ## ALU, flags and shifter -/

/-- The first `switch` of `realizar_operacao_ALU`: the value of `barramento_C`
before the flags are computed, for operation code `op`, holding register `h`
and B bus `b`. Case 59 is `(palavra)(-((int32_t)H))`. -/
def operacaoALU (op h b : Nat) : Nat :=
  if op = 12 then h &&& b
  else if op = 17 then 1
  else if op = 18 then paraPalavra (-1)
  else if op = 20 then b
  else if op = 24 then h
  else if op = 26 then nao32 h
  else if op = 28 then h ||| b
  else if op = 44 then nao32 b
  else if op = 53 then soma32 b 1
  else if op = 54 then sub32 b 1
  else if op = 57 then soma32 h 1
  else if op = 59 then paraPalavra (-(paraInt32 h))
  else if op = 60 then soma32 h b
  else if op = 61 then soma32 (soma32 h b) 1
  else if op = 63 then sub32 b h
  else 0

/-- The second `switch` of `realizar_operacao_ALU`: the shifter applied to the
32-bit value `r` (`<<= 8` keeps the low 32 bits). -/
def deslocar (modo r : Nat) : Nat :=
  if modo = 1 then (r <<< 8) % 4294967296
  else if modo = 2 then r >>> 1
  else r

/-- Model of `realizar_operacao_ALU`: operation, then flags, then shifter. -/
def realizar_operacao_ALU (s : Estado) : Estado :=
  let r := operacaoALU s.MIR_Operacao s.H s.barramento_B
  { s with
    barramento_C := deslocar s.MIR_Deslocador r
    N := if r = 0 then 0 else 1
    Z := if r = 0 then 1 else 0 }

/-! ## C bus -/

/-- Model of `atribuir_barramento_C`. -/
def atribuir_barramento_C (s : Estado) : Estado :=
  { s with
    MAR := if s.MIR_C &&& 0b000000001 ≠ 0 then s.barramento_C else s.MAR
    MDR := if s.MIR_C &&& 0b000000010 ≠ 0 then s.barramento_C else s.MDR
    PC := if s.MIR_C &&& 0b000000100 ≠ 0 then s.barramento_C else s.PC
    SP := if s.MIR_C &&& 0b000001000 ≠ 0 then s.barramento_C else s.SP
    LV := if s.MIR_C &&& 0b000010000 ≠ 0 then s.barramento_C else s.LV
    CPP := if s.MIR_C &&& 0b000100000 ≠ 0 then s.barramento_C else s.CPP
    TOS := if s.MIR_C &&& 0b001000000 ≠ 0 then s.barramento_C else s.TOS
    OPC := if s.MIR_C &&& 0b010000000 ≠ 0 then s.barramento_C else s.OPC
    H := if s.MIR_C &&& 0b100000000 ≠ 0 then s.barramento_C else s.H }

/-! ## Memory access -/

/-- The `palavra` that `memcpy` builds from four consecutive bytes `b0 b1 b2 b3`
(lowest address first). -/
def palavraDeBytes (o : Ordem) (b0 b1 b2 b3 : Nat) : Nat :=
  match o with
  | .little => b0 + 256 * b1 + 65536 * b2 + 16777216 * b3
  | .big => b3 + 256 * b2 + 65536 * b1 + 16777216 * b0

/-- The byte that `memcpy` stores at offset `i` (0..3) from the `palavra` `w`. -/
def byteDaPalavra (o : Ordem) (w i : Nat) : Nat :=
  match o with
  | .little => (w / 256 ^ i) % 256
  | .big => (w / 256 ^ (3 - i)) % 256

/-- Model of `memcpy(&w, &memoria[a], sizeof(palavra))`. -/
def lerPalavra (o : Ordem) (mem : Nat → Nat) (a : Nat) : Nat :=
  palavraDeBytes o (mem a) (mem (a + 1)) (mem (a + 2)) (mem (a + 3))

/-- Model of `memcpy(&memoria[a], &w, sizeof(palavra))`. -/
def escreverPalavra (o : Ordem) (mem : Nat → Nat) (a w : Nat) : Nat → Nat :=
  fun x => if a ≤ x ∧ x < a + 4 then byteDaPalavra o w (x - a) else mem x

/-- The index expression `MAR * 4`, computed in `palavra` arithmetic. -/
def enderecoPalavra (mar : Nat) : Nat := (mar * 4) % 4294967296

/-- The fetch `if (MIR_MEM & 0b001) MBR = memoria[PC];`. -/
def buscar (s : Estado) : Option Estado :=
  if s.MIR_MEM &&& 0b001 ≠ 0 then
    if s.PC < TAM_MEMORIA then some { s with MBR := s.memoria s.PC } else none
  else some s

/-- The read `if (MIR_MEM & 0b010) memcpy(&MDR, &memoria[MAR * 4], 4);`. -/
def lerMemoria (o : Ordem) (s : Estado) : Option Estado :=
  if s.MIR_MEM &&& 0b010 ≠ 0 then
    if enderecoPalavra s.MAR + 3 < TAM_MEMORIA then
      some { s with MDR := lerPalavra o s.memoria (enderecoPalavra s.MAR) }
    else none
  else some s

/-- The write `if (MIR_MEM & 0b100) memcpy(&memoria[MAR * 4], &MDR, 4);`. -/
def escreverMemoria (o : Ordem) (s : Estado) : Option Estado :=
  if s.MIR_MEM &&& 0b100 ≠ 0 then
    if enderecoPalavra s.MAR + 3 < TAM_MEMORIA then
      some { s with memoria := escreverPalavra o s.memoria (enderecoPalavra s.MAR) s.MDR }
    else none
  else some s

/-- Model of `operar_memoria`: fetch, then read, then write. -/
def operar_memoria (o : Ordem) (s : Estado) : Option Estado :=
  (buscar s).bind fun s1 => (lerMemoria o s1).bind fun s2 => escreverMemoria o s2

/-- The state `operar_memoria` returns when none of its accesses leaves
`memoria`: the three conditional assignments in order, without the range
checks. -/
def aposMemoria (o : Ordem) (s : Estado) : Estado :=
  { s with
    MBR := if s.MIR_MEM &&& 0b001 ≠ 0 then s.memoria s.PC else s.MBR
    MDR := if s.MIR_MEM &&& 0b010 ≠ 0 then
        lerPalavra o s.memoria (enderecoPalavra s.MAR)
      else s.MDR
    memoria := if s.MIR_MEM &&& 0b100 ≠ 0 then
        escreverPalavra o s.memoria (enderecoPalavra s.MAR)
          (if s.MIR_MEM &&& 0b010 ≠ 0 then
            lerPalavra o s.memoria (enderecoPalavra s.MAR)
          else s.MDR)
      else s.memoria }

/-! ## Next address -/

/-- The local `complemento` of `pular` after its three conditional ORs. -/
def complemento (s : Estado) : Nat :=
  let c0 := 0
  let c1 := if s.MIR_pulo &&& 0b001 ≠ 0 then c0 ||| (s.N <<< 8) else c0
  let c2 := if s.MIR_pulo &&& 0b010 ≠ 0 then c1 ||| (s.Z <<< 8) else c1
  if s.MIR_pulo &&& 0b100 ≠ 0 then c2 ||| s.MBR else c2

/-- Model of `pular`: `MPC |= complemento`. -/
def pular (s : Estado) : Estado :=
  { s with MPC := s.MPC ||| complemento s }

/-! ## Micro-cycle -/

/-- One iteration of the loop of `main`. -/
def ciclo (o : Ordem) (s : Estado) : Option Estado :=
  if s.MPC < TAM_MICROPROG then
    let s1 := { s with MIR := s.armazenamento s.MPC }
    let s2 := decodificar_microinstrucao s1
    let s3 := atribuir_barramento_B s2
    let s4 := realizar_operacao_ALU s3
    let s5 := atribuir_barramento_C s4
    (operar_memoria o s5).map pular
  else none

/-- The state of one iteration just before `operar_memoria` is called: `MIR`
loaded, decoded, B bus assigned, ALU run, C bus distributed. -/
def antesDaMemoria (s : Estado) : Estado :=
  atribuir_barramento_C (realizar_operacao_ALU (atribuir_barramento_B
    (decodificar_microinstrucao { s with MIR := s.armazenamento s.MPC })))

/-- The states the loop of `main` reaches from `s0`. -/
inductive Alcancavel (o : Ordem) (s0 : Estado) : Estado → Prop where
  | inicio : Alcancavel o s0 s0
  | passo {s t : Estado} : Alcancavel o s0 s → ciclo o s = some t → Alcancavel o s0 t

/-- Reading of a `byte` as a signed 8-bit integer. -/
def paraInt8 (x : Nat) : Int :=
  if x % 256 < 128 then ((x % 256 : Nat) : Int) else ((x % 256 : Nat) : Int) - 256

/-- Packing of seven field values into a microinstruction word, lowest field
first; used to build concrete microinstructions. -/
def montar (b mem c op desl pulo prox : Nat) : Nat :=
  b + 16 * mem + 128 * c + 65536 * op + 4194304 * desl + 16777216 * pulo +
    134217728 * prox

/-- A concrete state: start state over a zero memory and a control store whose
every entry is `H := H + B + 1` from `MDR`, next address 5, jump on `N`. -/
def estadoExemplo : Estado :=
  { estadoInicial (fun _ => montar 0 0 256 61 0 1 5) (fun _ => 0) with
    H := 7, MDR := 5, MBR := 200 }

/-- A concrete state for the memory unit: fetch, read and write requested,
`MAR = 3`, `PC = 2`, memory byte `a` holding `(a + 1) mod 256`. -/
def estadoMemoria : Estado :=
  { estadoExemplo with
    MIR_MEM := 7, MAR := 3, PC := 2, MDR := 9, memoria := fun a => (a + 1) % 256 }

/-! ## Program loader -/

/-- A file: its size in bytes and its content; `byte i` is the byte at position
`i` and is meaningful for `i < tam`. -/
structure Arquivo where
  tam : Nat
  byte : Nat → Nat

/-- The fatal exits of `carregar_programa`, one for each `fprintf(stderr, ...)`
followed by `exit(EXIT_FAILURE)`, in the order of the source. -/
inductive Falha where
  | abrir
  | lerTamanho
  | tamanhoInvalido
  | bytesIniciais
  | programaCompleto
  deriving DecidableEq, Repr

/-- Number of bytes `fread` delivers when `n` bytes are requested at file
position `pos`. -/
def lidos (a : Arquivo) (pos n : Nat) : Nat := min n (a.tam - pos)

/-- Memory after `fread(&memoria[dest], 1, n, f)` stored `k` bytes taken from
file position `pos`. -/
def copiar (mem : Nat → Nat) (dest : Nat) (a : Arquivo) (pos k : Nat) : Nat → Nat :=
  fun x => if dest ≤ x ∧ x < dest + k then a.byte (pos + (x - dest)) else mem x

/-- What `carregar_programa` leaves behind: the fatal exit taken (`none` when
the function returns), the bytes at each offset from `&memoria[0]` (offsets from
`TAM_MEMORIA` on lie outside the array), and for each `fread` into `memoria` the
offset it started at and the number of bytes it stored. -/
structure Carga where
  falha : Option Falha
  memoria : Nat → Nat
  escritas : List (Nat × Nat)

/-- Model of `carregar_programa`; `arquivo = none` is a file that `fopen` cannot
open, `mem` is `memoria` before the call. -/
def carregar_programa (o : Ordem) (arquivo : Option Arquivo) (mem : Nat → Nat) : Carga :=
  match arquivo with
  | none => { falha := some Falha.abrir, memoria := mem, escritas := [] }
  | some a =>
    if lidos a 0 4 ≠ 4 then
      { falha := some Falha.lerTamanho, memoria := mem, escritas := [] }
    else
      let tamanho := palavraDeBytes o (a.byte 0) (a.byte 1) (a.byte 2) (a.byte 3)
      if tamanho > TAM_MEMORIA ∨ tamanho < TAM_PROGRAMA_INICIAL then
        { falha := some Falha.tamanhoInvalido, memoria := mem, escritas := [] }
      else
        let n1 := lidos a 4 TAM_PROGRAMA_INICIAL
        let mem1 := copiar mem 0 a 4 n1
        if n1 ≠ TAM_PROGRAMA_INICIAL then
          { falha := some Falha.bytesIniciais, memoria := mem1, escritas := [(0, n1)] }
        else
          let restante := tamanho - TAM_PROGRAMA_INICIAL
          let n2 := lidos a 24 restante
          let mem2 := copiar mem1 0x0401 a 24 n2
          if n2 ≠ restante then
            { falha := some Falha.programaCompleto, memoria := mem2,
              escritas := [(0, n1), (0x0401, n2)] }
          else
            { falha := none, memoria := mem2, escritas := [(0, n1), (0x0401, n2)] }

/-- The value of the local `tamanho` of `carregar_programa` after the `memcpy`
from the first four bytes of the file. -/
def campoTamanho (o : Ordem) (a : Arquivo) : Nat :=
  palavraDeBytes o (a.byte 0) (a.byte 1) (a.byte 2) (a.byte 3)

/-- The `case` labels of the first `switch` of `realizar_operacao_ALU`, in the
order of the source. -/
def codigosALU : List Nat := [12, 17, 18, 20, 24, 26, 28, 44, 53, 54, 57, 59, 60, 61, 63]

/-- A program image of 29 bytes for a little-endian host: length field `25`,
then byte `i` of the file holds `i`. -/
def imagem25 : Arquivo :=
  { tam := 29
    byte := fun i => if i = 0 then 25 else if i < 4 then 0 else i }

/-- A program image for a little-endian host whose length field is
`100000000 = 0x05F5E100` (the memory capacity), followed by that many bytes `1`. -/
def imagemCheia : Arquivo :=
  { tam := 100000004
    byte := fun i =>
      if i = 0 then 0 else if i = 1 then 225 else if i = 2 then 245
      else if i = 3 then 5 else 1 }

/-- A state whose `MAR` is `2^30` and whose every microinstruction only writes
`MDR` (`0x01010101`) to memory; memory is zero. -/
def estadoEnvolto : Estado :=
  { estadoInicial (fun _ => montar 0 4 0 0 0 0 0) (fun _ => 0) with
    MAR := 1073741824, MDR := 16843009 }

/-- A state of the memory unit with `MAR = 2^30`, only the read bit set, and a
memory whose bytes 0..3 hold `1` while every other byte holds `0`. -/
def estadoLeituraEnvolta : Estado :=
  { estadoEnvolto with MIR_MEM := 2, memoria := fun a => if a < 4 then 1 else 0 }

/-! ## ALU table -/

theorem paraPalavra_neg_paraInt32 (h : Nat) :
    paraPalavra (-(paraInt32 h)) = (4294967296 - h % 4294967296) % 4294967296 := by
  unfold paraPalavra paraInt32
  split <;> omega

theorem nao32_testBit (x i : Nat) (hx : x < 4294967296) (hi : i < 32) :
    (nao32 x).testBit i = !x.testBit i := by
  have h32 : (4294967296 : Nat) = 2 ^ 32 := by norm_num
  have hx2 : x < 2 ^ 32 := by omega
  have e : nao32 x = 2 ^ 32 - (x + 1) := by
    unfold nao32
    rw [Nat.mod_eq_of_lt hx]
    omega
  rw [e, Nat.testBit_two_pow_sub_succ hx2]
  simp [hi]

theorem soma32_lt (a b : Nat) : soma32 a b < 4294967296 := by
  unfold soma32; omega

theorem sub32_lt (a b : Nat) : sub32 a b < 4294967296 := by
  unfold sub32; omega

theorem nao32_lt (a : Nat) : nao32 a < 4294967296 := by
  unfold nao32; omega

theorem paraPalavra_lt (i : Int) : paraPalavra i < 4294967296 := by
  unfold paraPalavra; omega

theorem paraPalavra_neg_one : paraPalavra (-1) = 4294967295 := by
  unfold paraPalavra; omega

theorem ite_lt_of {c : Prop} [Decidable c] {a b n : Nat} (ha : a < n) (hb : b < n) :
    (if c then a else b) < n := by
  split <;> assumption

theorem operacaoALU_lt (op h b : Nat) (hh : h < 4294967296) (hb : b < 4294967296) :
    operacaoALU op h b < 4294967296 := by
  have hand : h &&& b < 4294967296 := lt_of_le_of_lt Nat.and_le_left hh
  have hor : h ||| b < 4294967296 := by
    have : h ||| b < 2 ^ 32 := Nat.or_lt_two_pow (by omega) (by omega)
    omega
  have h1 : 1 < 4294967296 := by omega
  have h0 : 0 < 4294967296 := by omega
  unfold operacaoALU
  exact ite_lt_of hand (ite_lt_of h1 (ite_lt_of (paraPalavra_lt _) (ite_lt_of hb
    (ite_lt_of hh (ite_lt_of (nao32_lt _) (ite_lt_of hor (ite_lt_of (nao32_lt _)
    (ite_lt_of (soma32_lt _ _) (ite_lt_of (sub32_lt _ _) (ite_lt_of (soma32_lt _ _)
    (ite_lt_of (paraPalavra_lt _) (ite_lt_of (soma32_lt _ _) (ite_lt_of (soma32_lt _ _)
    (ite_lt_of (sub32_lt _ _) h0))))))))))))))

theorem operacaoALU_12 (h b : Nat) : operacaoALU 12 h b = h &&& b := by
  simp only [operacaoALU, Nat.reduceEqDiff, if_false, if_true]

theorem operacaoALU_17 (h b : Nat) : operacaoALU 17 h b = 1 := by
  simp only [operacaoALU, Nat.reduceEqDiff, if_false, if_true]

theorem operacaoALU_18 (h b : Nat) : operacaoALU 18 h b = paraPalavra (-1) := by
  simp only [operacaoALU, Nat.reduceEqDiff, if_false, if_true]

theorem operacaoALU_20 (h b : Nat) : operacaoALU 20 h b = b := by
  simp only [operacaoALU, Nat.reduceEqDiff, if_false, if_true]

theorem operacaoALU_24 (h b : Nat) : operacaoALU 24 h b = h := by
  simp only [operacaoALU, Nat.reduceEqDiff, if_false, if_true]

theorem operacaoALU_26 (h b : Nat) : operacaoALU 26 h b = nao32 h := by
  simp only [operacaoALU, Nat.reduceEqDiff, if_false, if_true]

theorem operacaoALU_28 (h b : Nat) : operacaoALU 28 h b = h ||| b := by
  simp only [operacaoALU, Nat.reduceEqDiff, if_false, if_true]

theorem operacaoALU_44 (h b : Nat) : operacaoALU 44 h b = nao32 b := by
  simp only [operacaoALU, Nat.reduceEqDiff, if_false, if_true]

theorem operacaoALU_53 (h b : Nat) : operacaoALU 53 h b = soma32 b 1 := by
  simp only [operacaoALU, Nat.reduceEqDiff, if_false, if_true]

theorem operacaoALU_54 (h b : Nat) : operacaoALU 54 h b = sub32 b 1 := by
  simp only [operacaoALU, Nat.reduceEqDiff, if_false, if_true]

theorem operacaoALU_57 (h b : Nat) : operacaoALU 57 h b = soma32 h 1 := by
  simp only [operacaoALU, Nat.reduceEqDiff, if_false, if_true]

theorem operacaoALU_59 (h b : Nat) : operacaoALU 59 h b = paraPalavra (-(paraInt32 h)) := by
  simp only [operacaoALU, Nat.reduceEqDiff, if_false, if_true]

theorem operacaoALU_60 (h b : Nat) : operacaoALU 60 h b = soma32 h b := by
  simp only [operacaoALU, Nat.reduceEqDiff, if_false, if_true]

theorem operacaoALU_61 (h b : Nat) : operacaoALU 61 h b = soma32 (soma32 h b) 1 := by
  simp only [operacaoALU, Nat.reduceEqDiff, if_false, if_true]

theorem operacaoALU_63 (h b : Nat) : operacaoALU 63 h b = sub32 b h := by
  simp only [operacaoALU, Nat.reduceEqDiff, if_false, if_true]

/-- C1: for 32-bit `H` and `B` the operation `switch` of `realizar_operacao_ALU`
yields `H AND B` (12), `1` (17), `0xFFFFFFFF` (18), `B` (20), `H` (24), `NOT H`
(26), `H OR B` (28), `NOT B` (44), `B+1` (53), `B-1` (54), `H+1` (57), `-H` (59),
`H+B` (60), `H+B+1` (61), `B-H` (63), all modulo `2^32`, and `0` for every other
operation code; the value put on the C bus is the shifter applied to it. -/
theorem alu_tabela (H B : Nat) (hH : H < 4294967296) (hB : B < 4294967296) :
    (∀ s : Estado, (realizar_operacao_ALU s).barramento_C =
        deslocar s.MIR_Deslocador (operacaoALU s.MIR_Operacao s.H s.barramento_B)) ∧
    operacaoALU 12 H B = H &&& B ∧
    operacaoALU 17 H B = 1 ∧
    operacaoALU 18 H B = 0xFFFFFFFF ∧
    operacaoALU 20 H B = B ∧
    operacaoALU 24 H B = H ∧
    (operacaoALU 26 H B = 0xFFFFFFFF - H ∧
      ∀ i, i < 32 → (operacaoALU 26 H B).testBit i = !H.testBit i) ∧
    operacaoALU 28 H B = H ||| B ∧
    (operacaoALU 44 H B = 0xFFFFFFFF - B ∧
      ∀ i, i < 32 → (operacaoALU 44 H B).testBit i = !B.testBit i) ∧
    ((operacaoALU 53 H B : Nat) : Int) = ((B : Int) + 1) % 4294967296 ∧
    ((operacaoALU 54 H B : Nat) : Int) = ((B : Int) - 1) % 4294967296 ∧
    ((operacaoALU 57 H B : Nat) : Int) = ((H : Int) + 1) % 4294967296 ∧
    ((operacaoALU 59 H B : Nat) : Int) = (-(H : Int)) % 4294967296 ∧
    ((operacaoALU 60 H B : Nat) : Int) = ((H : Int) + (B : Int)) % 4294967296 ∧
    ((operacaoALU 61 H B : Nat) : Int) = ((H : Int) + (B : Int) + 1) % 4294967296 ∧
    ((operacaoALU 63 H B : Nat) : Int) = ((B : Int) - (H : Int)) % 4294967296 ∧
    (∀ op, op ∉ [12, 17, 18, 20, 24, 26, 28, 44, 53, 54, 57, 59, 60, 61, 63] →
      operacaoALU op H B = 0) ∧
    (∀ op, operacaoALU op H B < 4294967296) := by
  refine ⟨fun s => rfl, operacaoALU_12 H B, operacaoALU_17 H B, ?_, operacaoALU_20 H B,
    operacaoALU_24 H B, ⟨?_, ?_⟩, operacaoALU_28 H B, ⟨?_, ?_⟩,
    ?_, ?_, ?_, ?_, ?_, ?_, ?_, ?_, ?_⟩
  · rw [operacaoALU_18, paraPalavra_neg_one]
  · rw [operacaoALU_26]; unfold nao32; omega
  · intro i hi
    rw [operacaoALU_26]
    exact nao32_testBit H i hH hi
  · rw [operacaoALU_44]; unfold nao32; omega
  · intro i hi
    rw [operacaoALU_44]
    exact nao32_testBit B i hB hi
  · rw [operacaoALU_53]; unfold soma32; omega
  · rw [operacaoALU_54]; unfold sub32; omega
  · rw [operacaoALU_57]; unfold soma32; omega
  · rw [operacaoALU_59, paraPalavra_neg_paraInt32]; omega
  · rw [operacaoALU_60]; unfold soma32; omega
  · rw [operacaoALU_61]; unfold soma32; omega
  · rw [operacaoALU_63]; unfold sub32; omega
  · intro op hop
    simp only [List.mem_cons, List.mem_singleton, List.not_mem_nil, or_false, not_or] at hop
    unfold operacaoALU
    simp only [hop, if_false]
  · intro op
    exact operacaoALU_lt op H B hH hB

/-- Instance of `alu_tabela` at `H = 7`, `B = 5`: operation 63 gives `5 - 7`
modulo `2^32`, that is `4294967294`, and the undefined code 0 gives `0`. -/
theorem alu_tabela_witness :
    (7 < 4294967296 ∧ 5 < 4294967296) ∧
    ((operacaoALU 63 7 5 : Nat) : Int) = ((5 : Int) - 7) % 4294967296 ∧
    operacaoALU 63 7 5 = 4294967294 ∧ operacaoALU 0 7 5 = 0 :=
  have h := alu_tabela 7 5 (by decide) (by decide)
  ⟨⟨by decide, by decide⟩, h.2.2.2.2.2.2.2.2.2.2.2.2.2.2.2.1, by decide,
    h.2.2.2.2.2.2.2.2.2.2.2.2.2.2.2.2.1 0 (by decide)⟩

/-! ## Flags -/

/-- C2: after `realizar_operacao_ALU` the flags classify the result taken before
the shifter: it is `0` iff `Z = 1` and `N = 0`, and non-zero iff `N = 1` and
`Z = 0`, for every operation, operands and shift mode; so the result `1` of
operation 17, whose top bit is clear, sets `N = 1`. -/
theorem flags_classificam (s : Estado) :
    (operacaoALU s.MIR_Operacao s.H s.barramento_B = 0 ↔
      (realizar_operacao_ALU s).Z = 1 ∧ (realizar_operacao_ALU s).N = 0) ∧
    (operacaoALU s.MIR_Operacao s.H s.barramento_B ≠ 0 ↔
      (realizar_operacao_ALU s).N = 1 ∧ (realizar_operacao_ALU s).Z = 0) ∧
    (s.MIR_Operacao = 17 → (realizar_operacao_ALU s).N = 1 ∧
      (realizar_operacao_ALU s).Z = 0 ∧
      (operacaoALU s.MIR_Operacao s.H s.barramento_B).testBit 31 = false) := by
  have hN : (realizar_operacao_ALU s).N =
      if operacaoALU s.MIR_Operacao s.H s.barramento_B = 0 then 0 else 1 := rfl
  have hZ : (realizar_operacao_ALU s).Z =
      if operacaoALU s.MIR_Operacao s.H s.barramento_B = 0 then 1 else 0 := rfl
  rw [hN, hZ]
  refine ⟨?_, ?_, ?_⟩
  · by_cases h : operacaoALU s.MIR_Operacao s.H s.barramento_B = 0
    · simp only [h, if_true, and_self]
    · simp only [h, if_false, false_iff, not_and]
      intro h1; omega
  · by_cases h : operacaoALU s.MIR_Operacao s.H s.barramento_B = 0
    · simp only [h, if_true, ne_eq, not_true_eq_false, false_iff, not_and]
      intro h1; omega
    · simp only [h, if_false, ne_eq, not_false_eq_true, and_self]
  · intro h17
    rw [h17, operacaoALU_17]
    simp only [one_ne_zero, if_false, true_and]
    decide

/-- Instance of `flags_classificam` at `estadoExemplo` with operation 17: the
result `1` gives `N = 1`, `Z = 0`. -/
theorem flags_classificam_witness :
    (realizar_operacao_ALU { estadoExemplo with MIR_Operacao := 17 }).N = 1 ∧
    (realizar_operacao_ALU { estadoExemplo with MIR_Operacao := 17 }).Z = 0 :=
  have h := (flags_classificam { estadoExemplo with MIR_Operacao := 17 }).2.2 rfl
  ⟨h.1, h.2.1⟩

/-! ## Next address -/

theorem and_two_pow_ne_zero (x i : Nat) : x &&& 2 ^ i ≠ 0 ↔ x.testBit i = true := by
  constructor
  · intro h
    by_contra hb
    apply h
    apply Nat.eq_of_testBit_eq
    intro j
    simp only [Nat.testBit_and, Nat.testBit_two_pow, Nat.zero_testBit]
    by_cases hij : i = j
    · subst hij; simp [hb]
    · simp [hij]
  · intro hb h
    have h2 := congrArg (fun n => n.testBit i) h
    simp [Nat.testBit_two_pow, hb] at h2

theorem and_1_ne_zero (x : Nat) : x &&& 1 ≠ 0 ↔ x.testBit 0 = true :=
  and_two_pow_ne_zero x 0

theorem and_2_ne_zero (x : Nat) : x &&& 2 ≠ 0 ↔ x.testBit 1 = true :=
  and_two_pow_ne_zero x 1

theorem and_4_ne_zero (x : Nat) : x &&& 4 ≠ 0 ↔ x.testBit 2 = true :=
  and_two_pow_ne_zero x 2

theorem complemento_eq (s : Estado) :
    complemento s =
      ((if s.MIR_pulo.testBit 0 = true then s.N <<< 8 else 0) |||
        (if s.MIR_pulo.testBit 1 = true then s.Z <<< 8 else 0)) |||
        (if s.MIR_pulo.testBit 2 = true then s.MBR else 0) := by
  unfold complemento
  simp only [and_1_ne_zero, and_2_ne_zero, and_4_ne_zero, Nat.zero_or]
  by_cases h0 : s.MIR_pulo.testBit 0 = true <;>
  by_cases h1 : s.MIR_pulo.testBit 1 = true <;>
  by_cases h2 : s.MIR_pulo.testBit 2 = true <;>
  simp [h0, h1, h2]

theorem pular_MPC (s : Estado) (hN : s.N ≤ 1) (hZ : s.Z ≤ 1) :
    (pular s).MPC =
      s.MPC ||| (if s.MIR_pulo.testBit 0 = true ∧ s.N = 1 then 256 else 0)
        ||| (if s.MIR_pulo.testBit 1 = true ∧ s.Z = 1 then 256 else 0)
        ||| (if s.MIR_pulo.testBit 2 = true then s.MBR else 0) := by
  have hM : (pular s).MPC = s.MPC ||| complemento s := rfl
  have hN2 : s.N = 0 ∨ s.N = 1 := by omega
  have hZ2 : s.Z = 0 ∨ s.Z = 1 := by omega
  rw [hM, complemento_eq]
  rcases hN2 with hn | hn <;> rcases hZ2 with hz | hz <;>
    simp [hn, hz, Nat.or_assoc]

/-- C3: `pular` resolves the next address by OR only. With flags `N`, `Z` in
`{0,1}` the new `MPC` is `next_addr OR (256 if jump bit 0 and N = 1) OR (256 if
jump bit 1 and Z = 1) OR (MBR if jump bit 2)`; nothing but `MPC` changes. -/
theorem pular_or (s : Estado) (hN : s.N ≤ 1) (hZ : s.Z ≤ 1) :
    (pular s).MPC =
      s.MPC ||| (if s.MIR_pulo.testBit 0 = true ∧ s.N = 1 then 256 else 0)
        ||| (if s.MIR_pulo.testBit 1 = true ∧ s.Z = 1 then 256 else 0)
        ||| (if s.MIR_pulo.testBit 2 = true then s.MBR else 0) ∧
    (s.MIR_pulo = 0 → (pular s).MPC = s.MPC) ∧
    (s.MPC = 5 → s.N = 1 → s.Z = 0 → s.MIR_pulo = 1 → (pular s).MPC = 261) := by
  have hM : (pular s).MPC = s.MPC ||| complemento s := rfl
  refine ⟨pular_MPC s hN hZ, ?_, ?_⟩ <;> rw [hM, complemento_eq]
  · intro hj
    simp [hj]
  · intro hm hn hz hj
    have hb : Nat.testBit 1 2 = false := by decide
    simp [hm, hn, hz, hj, hb]

/-- Instance of `pular_or` at `next_addr = 5`, `N = 1`, `Z = 0`, jump field `1`
(N only): the resolved address is `261`. -/
theorem pular_or_witness :
    (pular { estadoExemplo with MPC := 5, N := 1, Z := 0, MIR_pulo := 1 }).MPC = 261 :=
  (pular_or { estadoExemplo with MPC := 5, N := 1, Z := 0, MIR_pulo := 1 }
    (by decide) (by decide)).2.2 rfl rfl rfl rfl

/-! ## Decoder -/

theorem and_mask (x n : Nat) : x &&& (2 ^ n - 1) = x % 2 ^ n :=
  Nat.and_pow_two_sub_one_eq_mod x n

theorem campo_eq (w k n : Nat) : (w >>> k) &&& (2 ^ n - 1) = w / 2 ^ k % 2 ^ n := by
  rw [and_mask, Nat.shiftRight_eq_div_pow]

theorem campos_lit (w : Nat) :
    w &&& 0b1111 = w % 16 ∧
    (w >>> 4) &&& 0b111 = w / 16 % 8 ∧
    (w >>> 7) &&& 0b111111111 = w / 128 % 512 ∧
    (w >>> 16) &&& 0b111111 = w / 65536 % 64 ∧
    (w >>> 22) &&& 0b11 = w / 4194304 % 4 ∧
    (w >>> 24) &&& 0b111 = w / 16777216 % 8 ∧
    (w >>> 27) &&& 0b111111111 = w / 134217728 % 512 :=
  ⟨and_mask w 4, campo_eq w 4 3, campo_eq w 7 9, campo_eq w 16 6, campo_eq w 22 2,
    campo_eq w 24 3, campo_eq w 27 9⟩

/-- C4: `decodificar_microinstrucao` extracts from every word `w` the fields
`b_select` = bits 0-3, `mem_ops` = bits 4-6, `c_dest` = bits 7-15, `alu_op` =
bits 16-21, `shift` = bits 22-23, `jump` = bits 24-26 and `next_addr` = bits
27-35 (stored in `MPC`), each within its width; the function is total. -/
theorem decodificar_campos (s : Estado) (w : Nat) :
    (decodificar_microinstrucao { s with MIR := w }).MIR_B = w % 16 ∧
    (decodificar_microinstrucao { s with MIR := w }).MIR_MEM = w / 16 % 8 ∧
    (decodificar_microinstrucao { s with MIR := w }).MIR_C = w / 128 % 512 ∧
    (decodificar_microinstrucao { s with MIR := w }).MIR_Operacao = w / 65536 % 64 ∧
    (decodificar_microinstrucao { s with MIR := w }).MIR_Deslocador = w / 4194304 % 4 ∧
    (decodificar_microinstrucao { s with MIR := w }).MIR_pulo = w / 16777216 % 8 ∧
    (decodificar_microinstrucao { s with MIR := w }).MPC = w / 134217728 % 512 ∧
    (decodificar_microinstrucao { s with MIR := w }).MIR_B < 16 ∧
    (decodificar_microinstrucao { s with MIR := w }).MIR_MEM < 8 ∧
    (decodificar_microinstrucao { s with MIR := w }).MIR_C < 512 ∧
    (decodificar_microinstrucao { s with MIR := w }).MIR_Operacao < 64 ∧
    (decodificar_microinstrucao { s with MIR := w }).MIR_Deslocador < 4 ∧
    (decodificar_microinstrucao { s with MIR := w }).MIR_pulo < 8 ∧
    (decodificar_microinstrucao { s with MIR := w }).MPC < 512 := by
  obtain ⟨e1, e2, e3, e4, e5, e6, e7⟩ := campos_lit w
  have e1 : (decodificar_microinstrucao { s with MIR := w }).MIR_B = w % 16 := e1
  have e2 : (decodificar_microinstrucao { s with MIR := w }).MIR_MEM = w / 16 % 8 := e2
  have e3 : (decodificar_microinstrucao { s with MIR := w }).MIR_C = w / 128 % 512 := e3
  have e4 : (decodificar_microinstrucao { s with MIR := w }).MIR_Operacao =
      w / 65536 % 64 := e4
  have e5 : (decodificar_microinstrucao { s with MIR := w }).MIR_Deslocador =
      w / 4194304 % 4 := e5
  have e6 : (decodificar_microinstrucao { s with MIR := w }).MIR_pulo =
      w / 16777216 % 8 := e6
  have e7 : (decodificar_microinstrucao { s with MIR := w }).MPC =
      w / 134217728 % 512 := e7
  refine ⟨e1, e2, e3, e4, e5, e6, e7, ?_, ?_, ?_, ?_, ?_, ?_, ?_⟩
  · rw [e1]; omega
  · rw [e2]; omega
  · rw [e3]; omega
  · rw [e4]; omega
  · rw [e5]; omega
  · rw [e6]; omega
  · rw [e7]; omega

/-! ## B bus -/

set_option maxRecDepth 100000 in
theorem extensao_bits : ∀ m, m < 256 →
    ((∀ i, i < 32 → 8 ≤ i →
      (if m &&& 0b10000000 ≠ 0 then m ||| 0xFFFFFF00 else m).testBit i = m.testBit 7) ∧
    (∀ i, i < 8 →
      (if m &&& 0b10000000 ≠ 0 then m ||| 0xFFFFFF00 else m).testBit i = m.testBit i) ∧
    (if m &&& 0b10000000 ≠ 0 then m ||| 0xFFFFFF00 else m) < 4294967296) := by
  decide

set_option maxRecDepth 100000 in
theorem extensao_valor : ∀ m, m < 256 →
    paraInt32 (if m &&& 0b10000000 ≠ 0 then m ||| 0xFFFFFF00 else m) = paraInt8 m := by
  decide

theorem ciclo_eq (o : Ordem) (s : Estado) :
    ciclo o s =
      if s.MPC < TAM_MICROPROG then (operar_memoria o (antesDaMemoria s)).map pular
      else none := rfl

theorem valorBarramentoB_invalido (s : Estado) (h : 9 ≤ s.MIR_B) :
    valorBarramentoB s = 0xFFFFFFFF := by
  unfold valorBarramentoB
  repeat rw [if_neg (by omega)]

theorem operar_memoria_sem_acesso (o : Ordem) (s : Estado) (h : s.MIR_MEM = 0) :
    operar_memoria o s = some s := by
  simp [operar_memoria, buscar, lerMemoria, escreverMemoria, h]

/-- C5: `atribuir_barramento_B` puts on the B bus `MDR` (0), `PC` (1), `MBR`
sign-extended to 32 bits (2), `MBR` zero-extended (3), `SP` (4), `LV` (5), `CPP`
(6), `TOS` (7), `OPC` (8) and `0xFFFFFFFF` for every other selector; with an
invalid selector and no memory operation the cycle still completes. -/
theorem barramento_B_selecao (s : Estado) (hMBR : s.MBR < 256) :
    (s.MIR_B = 0 → (atribuir_barramento_B s).barramento_B = s.MDR) ∧
    (s.MIR_B = 1 → (atribuir_barramento_B s).barramento_B = s.PC) ∧
    (s.MIR_B = 2 →
      (∀ i, i < 32 → 8 ≤ i →
        (atribuir_barramento_B s).barramento_B.testBit i = s.MBR.testBit 7) ∧
      (∀ i, i < 8 →
        (atribuir_barramento_B s).barramento_B.testBit i = s.MBR.testBit i) ∧
      (atribuir_barramento_B s).barramento_B < 4294967296 ∧
      paraInt32 (atribuir_barramento_B s).barramento_B = paraInt8 s.MBR) ∧
    (s.MIR_B = 3 → (atribuir_barramento_B s).barramento_B = s.MBR ∧
      (atribuir_barramento_B s).barramento_B < 256) ∧
    (s.MIR_B = 4 → (atribuir_barramento_B s).barramento_B = s.SP) ∧
    (s.MIR_B = 5 → (atribuir_barramento_B s).barramento_B = s.LV) ∧
    (s.MIR_B = 6 → (atribuir_barramento_B s).barramento_B = s.CPP) ∧
    (s.MIR_B = 7 → (atribuir_barramento_B s).barramento_B = s.TOS) ∧
    (s.MIR_B = 8 → (atribuir_barramento_B s).barramento_B = s.OPC) ∧
    (9 ≤ s.MIR_B → (atribuir_barramento_B s).barramento_B = 0xFFFFFFFF) ∧
    (∀ o : Ordem, s.MPC < TAM_MICROPROG → 9 ≤ s.armazenamento s.MPC % 16 →
      s.armazenamento s.MPC / 16 % 8 = 0 →
      ∃ t, ciclo o s = some t ∧ t.barramento_B = 0xFFFFFFFF) := by
  have hB : (atribuir_barramento_B s).barramento_B = valorBarramentoB s := rfl
  rw [hB]
  refine ⟨?_, ?_, ?_, ?_, ?_, ?_, ?_, ?_, ?_, ?_, ?_⟩
  · intro h; simp [valorBarramentoB, h]
  · intro h; simp [valorBarramentoB, h]
  · intro h
    have e : valorBarramentoB s =
        if s.MBR &&& 0b10000000 ≠ 0 then s.MBR ||| 0xFFFFFF00 else s.MBR := by
      simp [valorBarramentoB, h]
    rw [e]
    exact ⟨(extensao_bits s.MBR hMBR).1, (extensao_bits s.MBR hMBR).2.1,
      (extensao_bits s.MBR hMBR).2.2, extensao_valor s.MBR hMBR⟩
  · intro h
    have e : valorBarramentoB s = s.MBR := by simp [valorBarramentoB, h]
    rw [e]; exact ⟨rfl, hMBR⟩
  · intro h; simp [valorBarramentoB, h]
  · intro h; simp [valorBarramentoB, h]
  · intro h; simp [valorBarramentoB, h]
  · intro h; simp [valorBarramentoB, h]
  · intro h; simp [valorBarramentoB, h]
  · intro h; exact valorBarramentoB_invalido s h
  · intro o hmpc hb hmem
    have d := campos_lit (s.armazenamento s.MPC)
    have hmem2 : (antesDaMemoria s).MIR_MEM = 0 := by
      rw [← hmem, ← d.2.1]; rfl
    refine ⟨pular (antesDaMemoria s), ?_, ?_⟩
    · rw [ciclo_eq, if_pos hmpc, operar_memoria_sem_acesso o _ hmem2]
      rfl
    · show valorBarramentoB
        (decodificar_microinstrucao { s with MIR := s.armazenamento s.MPC }) = _
      apply valorBarramentoB_invalido
      show 9 ≤ s.armazenamento s.MPC &&& 0b1111
      rw [d.1]; exact hb

/-- Instance of `barramento_B_selecao` at `estadoExemplo` (`MBR = 200`) with
selector 2: the B bus holds `200 - 256` as a signed 32-bit integer. -/
theorem barramento_B_selecao_witness :
    estadoExemplo.MBR < 256 ∧
    paraInt32 (atribuir_barramento_B { estadoExemplo with MIR_B := 2 }).barramento_B
      = -56 :=
  ⟨by decide,
    ((barramento_B_selecao { estadoExemplo with MIR_B := 2 } (by decide)).2.2.1 rfl).2.2.2⟩

/-! ## Shifter -/

/-- C6: the shifter maps a 32-bit result `r` to `r * 256 mod 2^32` in mode 1
(low 8 bits zero, top 8 bits of `r` lost), to `r / 2` in mode 2 (bit 31 clear)
and to `r` in modes 0 and 3; `realizar_operacao_ALU` applies it once to the ALU
result, and the flags do not depend on the shift mode. -/
theorem deslocador_modos (r : Nat) (hr : r < 4294967296) :
    deslocar 1 r = (r * 256) % 4294967296 ∧
    deslocar 1 r % 256 = 0 ∧
    deslocar 1 r = deslocar 1 (r % 16777216) ∧
    deslocar 2 r = r / 2 ∧
    (deslocar 2 r).testBit 31 = false ∧
    deslocar 0 r = r ∧
    deslocar 3 r = r ∧
    (∀ s : Estado, (realizar_operacao_ALU s).barramento_C =
      deslocar s.MIR_Deslocador (operacaoALU s.MIR_Operacao s.H s.barramento_B)) ∧
    (∀ (s : Estado) (m : Nat),
      (realizar_operacao_ALU { s with MIR_Deslocador := m }).N =
        (realizar_operacao_ALU s).N ∧
      (realizar_operacao_ALU { s with MIR_Deslocador := m }).Z =
        (realizar_operacao_ALU s).Z) := by
  have h1 : ∀ x, deslocar 1 x = (x * 256) % 4294967296 := by
    intro x
    simp only [deslocar, if_true, Nat.shiftLeft_eq]
  have h2 : deslocar 2 r = r / 2 := by
    simp only [deslocar, Nat.reduceEqDiff, if_false, if_true, Nat.shiftRight_eq_div_pow]
  refine ⟨h1 r, ?_, ?_, h2, ?_, ?_, ?_, fun s => rfl, fun s m => ⟨rfl, rfl⟩⟩
  · rw [h1]; omega
  · rw [h1, h1]; omega
  · rw [h2]
    apply Nat.testBit_lt_two_pow
    have : (2 : Nat) ^ 31 = 2147483648 := by norm_num
    omega
  · simp only [deslocar, Nat.reduceEqDiff, if_false]
  · simp only [deslocar, Nat.reduceEqDiff, if_false]

/-- Instance of `deslocador_modos` at `r = 0x81000001`: mode 1 loses the top
byte, mode 2 is a logical shift. -/
theorem deslocador_modos_witness :
    2164260865 < 4294967296 ∧ deslocar 1 2164260865 = 256 ∧
    deslocar 2 2164260865 = 1082130432 :=
  have h := deslocador_modos 2164260865 (by decide)
  ⟨by decide, h.1.trans (by decide), h.2.2.2.1.trans (by decide)⟩

/-! ## C bus -/

theorem and_8_ne_zero (x : Nat) : x &&& 8 ≠ 0 ↔ x.testBit 3 = true :=
  and_two_pow_ne_zero x 3

theorem and_16_ne_zero (x : Nat) : x &&& 16 ≠ 0 ↔ x.testBit 4 = true :=
  and_two_pow_ne_zero x 4

theorem and_32_ne_zero (x : Nat) : x &&& 32 ≠ 0 ↔ x.testBit 5 = true :=
  and_two_pow_ne_zero x 5

theorem and_64_ne_zero (x : Nat) : x &&& 64 ≠ 0 ↔ x.testBit 6 = true :=
  and_two_pow_ne_zero x 6

theorem and_128_ne_zero (x : Nat) : x &&& 128 ≠ 0 ↔ x.testBit 7 = true :=
  and_two_pow_ne_zero x 7

theorem and_256_ne_zero (x : Nat) : x &&& 256 ≠ 0 ↔ x.testBit 8 = true :=
  and_two_pow_ne_zero x 8

theorem atribuir_barramento_C_regs (s : Estado) :
    (atribuir_barramento_C s).MAR =
      (if s.MIR_C.testBit 0 = true then s.barramento_C else s.MAR) ∧
    (atribuir_barramento_C s).MDR =
      (if s.MIR_C.testBit 1 = true then s.barramento_C else s.MDR) ∧
    (atribuir_barramento_C s).PC =
      (if s.MIR_C.testBit 2 = true then s.barramento_C else s.PC) ∧
    (atribuir_barramento_C s).SP =
      (if s.MIR_C.testBit 3 = true then s.barramento_C else s.SP) ∧
    (atribuir_barramento_C s).LV =
      (if s.MIR_C.testBit 4 = true then s.barramento_C else s.LV) ∧
    (atribuir_barramento_C s).CPP =
      (if s.MIR_C.testBit 5 = true then s.barramento_C else s.CPP) ∧
    (atribuir_barramento_C s).TOS =
      (if s.MIR_C.testBit 6 = true then s.barramento_C else s.TOS) ∧
    (atribuir_barramento_C s).OPC =
      (if s.MIR_C.testBit 7 = true then s.barramento_C else s.OPC) ∧
    (atribuir_barramento_C s).H =
      (if s.MIR_C.testBit 8 = true then s.barramento_C else s.H) := by
  simp only [atribuir_barramento_C, and_1_ne_zero, and_2_ne_zero, and_4_ne_zero,
    and_8_ne_zero, and_16_ne_zero, and_32_ne_zero, and_64_ne_zero, and_128_ne_zero,
    and_256_ne_zero, and_self]

/-- C7: `atribuir_barramento_C` copies the C bus into each of `MAR`, `MDR`, `PC`,
`SP`, `LV`, `CPP`, `TOS`, `OPC`, `H` whose bit (0..8) of `MIR_C` is set and keeps
the others; `MBR`, `N`, `Z`, `MPC` and memory are unchanged. The mask `{MAR, H}`
writes the same value to both, and the zero mask changes no register. -/
theorem barramento_C_distribui (s : Estado) :
    (atribuir_barramento_C s).MAR =
      (if s.MIR_C.testBit 0 = true then s.barramento_C else s.MAR) ∧
    (atribuir_barramento_C s).MDR =
      (if s.MIR_C.testBit 1 = true then s.barramento_C else s.MDR) ∧
    (atribuir_barramento_C s).PC =
      (if s.MIR_C.testBit 2 = true then s.barramento_C else s.PC) ∧
    (atribuir_barramento_C s).SP =
      (if s.MIR_C.testBit 3 = true then s.barramento_C else s.SP) ∧
    (atribuir_barramento_C s).LV =
      (if s.MIR_C.testBit 4 = true then s.barramento_C else s.LV) ∧
    (atribuir_barramento_C s).CPP =
      (if s.MIR_C.testBit 5 = true then s.barramento_C else s.CPP) ∧
    (atribuir_barramento_C s).TOS =
      (if s.MIR_C.testBit 6 = true then s.barramento_C else s.TOS) ∧
    (atribuir_barramento_C s).OPC =
      (if s.MIR_C.testBit 7 = true then s.barramento_C else s.OPC) ∧
    (atribuir_barramento_C s).H =
      (if s.MIR_C.testBit 8 = true then s.barramento_C else s.H) ∧
    (atribuir_barramento_C s).MBR = s.MBR ∧
    (atribuir_barramento_C s).N = s.N ∧
    (atribuir_barramento_C s).Z = s.Z ∧
    (atribuir_barramento_C s).MPC = s.MPC ∧
    (atribuir_barramento_C s).memoria = s.memoria ∧
    (s.MIR_C = 0b100000001 →
      (atribuir_barramento_C s).MAR = s.barramento_C ∧
      (atribuir_barramento_C s).H = s.barramento_C ∧
      (atribuir_barramento_C s).MDR = s.MDR ∧
      (atribuir_barramento_C s).PC = s.PC ∧
      (atribuir_barramento_C s).SP = s.SP ∧
      (atribuir_barramento_C s).LV = s.LV ∧
      (atribuir_barramento_C s).CPP = s.CPP ∧
      (atribuir_barramento_C s).TOS = s.TOS ∧
      (atribuir_barramento_C s).OPC = s.OPC) ∧
    (s.MIR_C = 0 →
      (atribuir_barramento_C s).MAR = s.MAR ∧
      (atribuir_barramento_C s).MDR = s.MDR ∧
      (atribuir_barramento_C s).PC = s.PC ∧
      (atribuir_barramento_C s).SP = s.SP ∧
      (atribuir_barramento_C s).LV = s.LV ∧
      (atribuir_barramento_C s).CPP = s.CPP ∧
      (atribuir_barramento_C s).TOS = s.TOS ∧
      (atribuir_barramento_C s).OPC = s.OPC ∧
      (atribuir_barramento_C s).H = s.H) := by
  have h := atribuir_barramento_C_regs s
  obtain ⟨h0, h1, h2, h3, h4, h5, h6, h7, h8⟩ := h
  refine ⟨h0, h1, h2, h3, h4, h5, h6, h7, h8, rfl, rfl, rfl, rfl, rfl, ?_, ?_⟩
  · intro hm
    have b0 : Nat.testBit 257 0 = true := by decide
    have b1 : Nat.testBit 257 1 = false := by decide
    have b2 : Nat.testBit 257 2 = false := by decide
    have b3 : Nat.testBit 257 3 = false := by decide
    have b4 : Nat.testBit 257 4 = false := by decide
    have b5 : Nat.testBit 257 5 = false := by decide
    have b6 : Nat.testBit 257 6 = false := by decide
    have b7 : Nat.testBit 257 7 = false := by decide
    have b8 : Nat.testBit 257 8 = true := by decide
    rw [h0, h1, h2, h3, h4, h5, h6, h7, h8, hm, b0, b1, b2, b3, b4, b5, b6, b7, b8]
    simp only [Bool.false_eq_true, if_false, if_true, and_self]
  · intro hm
    rw [h0, h1, h2, h3, h4, h5, h6, h7, h8, hm]
    simp only [Nat.zero_testBit, Bool.false_eq_true, if_false, and_self]

/-- Instance of `barramento_C_distribui` at `estadoExemplo` with the mask
`{MAR, H}` and the value `9` on the C bus. -/
theorem barramento_C_distribui_witness :
    (atribuir_barramento_C
      { estadoExemplo with MIR_C := 0b100000001, barramento_C := 9 }).MAR = 9 ∧
    (atribuir_barramento_C
      { estadoExemplo with MIR_C := 0b100000001, barramento_C := 9 }).H = 9 :=
  have h := (barramento_C_distribui
    { estadoExemplo with MIR_C := 0b100000001, barramento_C := 9 }).2.2.2.2.2.2.2.2.2.2.2.2.2.2.1 rfl
  ⟨h.1, h.2.1⟩

/-! ## Memory access -/

theorem byteDaPalavra_palavraDeBytes (o : Ordem) (b0 b1 b2 b3 : Nat)
    (h0 : b0 < 256) (h1 : b1 < 256) (h2 : b2 < 256) (h3 : b3 < 256) :
    byteDaPalavra o (palavraDeBytes o b0 b1 b2 b3) 0 = b0 ∧
    byteDaPalavra o (palavraDeBytes o b0 b1 b2 b3) 1 = b1 ∧
    byteDaPalavra o (palavraDeBytes o b0 b1 b2 b3) 2 = b2 ∧
    byteDaPalavra o (palavraDeBytes o b0 b1 b2 b3) 3 = b3 := by
  cases o
  · simp only [byteDaPalavra, palavraDeBytes]
    norm_num
    omega
  · simp only [byteDaPalavra, palavraDeBytes]
    norm_num
    omega

theorem escreverPalavra_lerPalavra (o : Ordem) (mem : Nat → Nat) (a : Nat)
    (hmem : ∀ x, mem x < 256) : escreverPalavra o mem a (lerPalavra o mem a) = mem := by
  funext x
  have hb := byteDaPalavra_palavraDeBytes o (mem a) (mem (a + 1)) (mem (a + 2))
    (mem (a + 3)) (hmem _) (hmem _) (hmem _) (hmem _)
  unfold escreverPalavra lerPalavra
  split
  · rename_i hx
    have hc : x = a ∨ x = a + 1 ∨ x = a + 2 ∨ x = a + 3 := by omega
    rcases hc with e | e | e | e
    · subst e; rw [Nat.sub_self]; exact hb.1
    · subst e; rw [Nat.add_sub_cancel_left]; exact hb.2.1
    · subst e; rw [Nat.add_sub_cancel_left]; exact hb.2.2.1
    · subst e; rw [Nat.add_sub_cancel_left]; exact hb.2.2.2
  · rfl

theorem enderecoPalavra_eq (mar : Nat) (h : 4 * mar + 3 < TAM_MEMORIA) :
    enderecoPalavra mar = 4 * mar := by
  unfold TAM_MEMORIA at h
  unfold enderecoPalavra
  omega

theorem buscar_dentro (s : Estado) (hPC : s.PC < TAM_MEMORIA) :
    buscar s = some
      { s with MBR := if s.MIR_MEM.testBit 0 = true then s.memoria s.PC else s.MBR } := by
  by_cases b : s.MIR_MEM.testBit 0 = true
  · simp only [buscar, and_1_ne_zero, b, hPC, if_true]
  · have b2 := Bool.eq_false_iff.mpr b
    rw [buscar, if_neg (by rw [and_1_ne_zero]; exact b), if_neg b]

theorem lerMemoria_dentro (o : Ordem) (s : Estado) (hMAR : 4 * s.MAR + 3 < TAM_MEMORIA) :
    lerMemoria o s = some
      { s with MDR := if s.MIR_MEM.testBit 1 = true then lerPalavra o s.memoria (4 * s.MAR)
          else s.MDR } := by
  have he := enderecoPalavra_eq s.MAR hMAR
  by_cases b : s.MIR_MEM.testBit 1 = true
  · simp only [lerMemoria, and_2_ne_zero, b, he, hMAR, if_true]
  · have b2 := Bool.eq_false_iff.mpr b
    rw [lerMemoria, if_neg (by rw [and_2_ne_zero]; exact b), if_neg b]

theorem escreverMemoria_dentro (o : Ordem) (s : Estado)
    (hMAR : 4 * s.MAR + 3 < TAM_MEMORIA) :
    escreverMemoria o s = some
      { s with memoria := if s.MIR_MEM.testBit 2 = true then
          escreverPalavra o s.memoria (4 * s.MAR) s.MDR else s.memoria } := by
  have he := enderecoPalavra_eq s.MAR hMAR
  by_cases b : s.MIR_MEM.testBit 2 = true
  · simp only [escreverMemoria, and_4_ne_zero, b, he, hMAR, if_true]
  · have b2 := Bool.eq_false_iff.mpr b
    rw [escreverMemoria, if_neg (by rw [and_4_ne_zero]; exact b), if_neg b]

theorem operar_memoria_dentro (o : Ordem) (s : Estado) (hPC : s.PC < TAM_MEMORIA)
    (hMAR : 4 * s.MAR + 3 < TAM_MEMORIA) :
    operar_memoria o s = some
      { s with
        MBR := if s.MIR_MEM.testBit 0 = true then s.memoria s.PC else s.MBR
        MDR := if s.MIR_MEM.testBit 1 = true then lerPalavra o s.memoria (4 * s.MAR)
          else s.MDR
        memoria := if s.MIR_MEM.testBit 2 = true then
            escreverPalavra o s.memoria (4 * s.MAR)
              (if s.MIR_MEM.testBit 1 = true then lerPalavra o s.memoria (4 * s.MAR)
                else s.MDR)
          else s.memoria } := by
  have e1 := buscar_dentro s hPC
  have e2 := lerMemoria_dentro o
    { s with MBR := if s.MIR_MEM.testBit 0 = true then s.memoria s.PC else s.MBR } hMAR
  have e3 := escreverMemoria_dentro o
    { s with
      MBR := if s.MIR_MEM.testBit 0 = true then s.memoria s.PC else s.MBR
      MDR := if s.MIR_MEM.testBit 1 = true then lerPalavra o s.memoria (4 * s.MAR)
        else s.MDR } hMAR
  calc operar_memoria o s
      = (lerMemoria o
          { s with MBR := if s.MIR_MEM.testBit 0 = true then s.memoria s.PC else s.MBR }).bind
          (fun s2 => escreverMemoria o s2) := by
        rw [operar_memoria, e1]; rfl
    _ = escreverMemoria o
          { s with
            MBR := if s.MIR_MEM.testBit 0 = true then s.memoria s.PC else s.MBR
            MDR := if s.MIR_MEM.testBit 1 = true then lerPalavra o s.memoria (4 * s.MAR)
              else s.MDR } := by
        rw [e2]; rfl
    _ = _ := by
        rw [e3]

/-- C8: with `PC` and `4*MAR+3` inside memory, `operar_memoria` returns a state
in which `MBR = memoria[PC]` if bit 0 of `MIR_MEM` is set (else unchanged), `MDR`
is the word made of the bytes at `4*MAR .. 4*MAR+3` if bit 1 is set (else
unchanged) and, if bit 2 is set, those four bytes hold the bytes of that final
`MDR` while all other bytes are kept; with read and write both set memory is
unchanged. -/
theorem operar_memoria_efeito (o : Ordem) (s : Estado) (hPC : s.PC < TAM_MEMORIA)
    (hMAR : 4 * s.MAR + 3 < TAM_MEMORIA) (hmem : ∀ a, s.memoria a < 256) :
    ∃ t, operar_memoria o s = some t ∧
      t.MBR = (if s.MIR_MEM.testBit 0 = true then s.memoria s.PC else s.MBR) ∧
      t.MDR = (if s.MIR_MEM.testBit 1 = true then
          palavraDeBytes o (s.memoria (4 * s.MAR)) (s.memoria (4 * s.MAR + 1))
            (s.memoria (4 * s.MAR + 2)) (s.memoria (4 * s.MAR + 3))
        else s.MDR) ∧
      (s.MIR_MEM.testBit 2 = true →
        ∀ i, i < 4 → t.memoria (4 * s.MAR + i) = byteDaPalavra o t.MDR i) ∧
      (s.MIR_MEM.testBit 2 = true →
        ∀ a, a < 4 * s.MAR ∨ 4 * s.MAR + 4 ≤ a → t.memoria a = s.memoria a) ∧
      (s.MIR_MEM.testBit 2 = false → t.memoria = s.memoria) ∧
      (s.MIR_MEM.testBit 1 = true → s.MIR_MEM.testBit 2 = true →
        t.memoria = s.memoria) ∧
      t.MAR = s.MAR ∧ t.PC = s.PC := by
  refine ⟨_, operar_memoria_dentro o s hPC hMAR, rfl, rfl, ?_, ?_, ?_, ?_, rfl, rfl⟩
  · intro b2 i hi
    simp only [b2, if_true, escreverPalavra]
    rw [if_pos (by omega), Nat.add_sub_cancel_left]
  · intro b2 a ha
    simp only [b2, if_true, escreverPalavra]
    rw [if_neg (by omega)]
  · intro b2
    simp only [b2, Bool.false_eq_true, if_false]
  · intro b1 b2
    simp only [b1, b2, if_true]
    exact escreverPalavra_lerPalavra o s.memoria (4 * s.MAR) hmem

/-- Instance of `operar_memoria_efeito` at `estadoMemoria` on a little-endian
host: the fetch reads byte 2, the read builds the word of bytes 12..15 and the
write stores it back. -/
theorem operar_memoria_efeito_witness :
    (estadoMemoria.PC < TAM_MEMORIA ∧ 4 * estadoMemoria.MAR + 3 < TAM_MEMORIA ∧
      ∀ a, estadoMemoria.memoria a < 256) ∧
    ∃ t, operar_memoria Ordem.little estadoMemoria = some t ∧ t.MBR = 3 ∧
      t.MDR = 269422093 ∧ t.memoria = estadoMemoria.memoria := by
  have hm : ∀ a, estadoMemoria.memoria a < 256 := fun a => Nat.mod_lt _ (by decide)
  obtain ⟨t, ht, hMBR, hMDR, _, _, _, hrw, _, _⟩ :=
    operar_memoria_efeito Ordem.little estadoMemoria (by decide) (by decide) hm
  refine ⟨⟨by decide, by decide, hm⟩, t, ht, ?_, ?_, hrw (by decide) (by decide)⟩
  · rw [hMBR]; decide
  · rw [hMDR]; decide

/-! ## Micro-cycle -/

theorem antesDaMemoria_flags (s : Estado) :
    (antesDaMemoria s).N ≤ 1 ∧ (antesDaMemoria s).Z ≤ 1 := by
  have hN : (antesDaMemoria s).N =
      if operacaoALU (decodificar_microinstrucao
          { s with MIR := s.armazenamento s.MPC }).MIR_Operacao s.H
          (valorBarramentoB (decodificar_microinstrucao
            { s with MIR := s.armazenamento s.MPC })) = 0 then 0 else 1 := rfl
  have hZ : (antesDaMemoria s).Z =
      if operacaoALU (decodificar_microinstrucao
          { s with MIR := s.armazenamento s.MPC }).MIR_Operacao s.H
          (valorBarramentoB (decodificar_microinstrucao
            { s with MIR := s.armazenamento s.MPC })) = 0 then 1 else 0 := rfl
  rw [hN, hZ]
  constructor <;> split <;> omega

theorem buscar_iff (s t : Estado) :
    buscar s = some t ↔
      (s.MIR_MEM &&& 0b001 ≠ 0 → s.PC < TAM_MEMORIA) ∧
      t = { s with MBR := if s.MIR_MEM &&& 0b001 ≠ 0 then s.memoria s.PC else s.MBR } := by
  unfold buscar
  by_cases hc : s.MIR_MEM &&& 0b001 ≠ 0
  · by_cases hb : s.PC < TAM_MEMORIA
    · simp only [if_pos hc, if_pos hb]
      constructor
      · intro h; exact ⟨fun _ => hb, (Option.some.inj h).symm⟩
      · rintro ⟨_, rfl⟩; rfl
    · simp only [if_pos hc, if_neg hb]
      constructor
      · intro h; cases h
      · rintro ⟨h, _⟩; exact absurd (h hc) hb
  · simp only [if_neg hc]
    constructor
    · intro h; exact ⟨fun h2 => absurd h2 hc, (Option.some.inj h).symm⟩
    · rintro ⟨_, rfl⟩; rfl

theorem lerMemoria_iff (o : Ordem) (s t : Estado) :
    lerMemoria o s = some t ↔
      (s.MIR_MEM &&& 0b010 ≠ 0 → enderecoPalavra s.MAR + 3 < TAM_MEMORIA) ∧
      t = { s with MDR := if s.MIR_MEM &&& 0b010 ≠ 0 then
          lerPalavra o s.memoria (enderecoPalavra s.MAR) else s.MDR } := by
  unfold lerMemoria
  by_cases hc : s.MIR_MEM &&& 0b010 ≠ 0
  · by_cases hb : enderecoPalavra s.MAR + 3 < TAM_MEMORIA
    · simp only [if_pos hc, if_pos hb]
      constructor
      · intro h; exact ⟨fun _ => hb, (Option.some.inj h).symm⟩
      · rintro ⟨_, rfl⟩; rfl
    · simp only [if_pos hc, if_neg hb]
      constructor
      · intro h; cases h
      · rintro ⟨h, _⟩; exact absurd (h hc) hb
  · simp only [if_neg hc]
    constructor
    · intro h; exact ⟨fun h2 => absurd h2 hc, (Option.some.inj h).symm⟩
    · rintro ⟨_, rfl⟩; rfl

theorem escreverMemoria_iff (o : Ordem) (s t : Estado) :
    escreverMemoria o s = some t ↔
      (s.MIR_MEM &&& 0b100 ≠ 0 → enderecoPalavra s.MAR + 3 < TAM_MEMORIA) ∧
      t = { s with memoria := if s.MIR_MEM &&& 0b100 ≠ 0 then
          escreverPalavra o s.memoria (enderecoPalavra s.MAR) s.MDR else s.memoria } := by
  unfold escreverMemoria
  by_cases hc : s.MIR_MEM &&& 0b100 ≠ 0
  · by_cases hb : enderecoPalavra s.MAR + 3 < TAM_MEMORIA
    · simp only [if_pos hc, if_pos hb]
      constructor
      · intro h; exact ⟨fun _ => hb, (Option.some.inj h).symm⟩
      · rintro ⟨_, rfl⟩; rfl
    · simp only [if_pos hc, if_neg hb]
      constructor
      · intro h; cases h
      · rintro ⟨h, _⟩; exact absurd (h hc) hb
  · simp only [if_neg hc]
    constructor
    · intro h; exact ⟨fun h2 => absurd h2 hc, (Option.some.inj h).symm⟩
    · rintro ⟨_, rfl⟩; rfl

theorem operar_memoria_iff (o : Ordem) (s t : Estado) :
    operar_memoria o s = some t ↔
      ((s.MIR_MEM &&& 0b001 ≠ 0 → s.PC < TAM_MEMORIA) ∧
        (s.MIR_MEM &&& 0b010 ≠ 0 → enderecoPalavra s.MAR + 3 < TAM_MEMORIA) ∧
        (s.MIR_MEM &&& 0b100 ≠ 0 → enderecoPalavra s.MAR + 3 < TAM_MEMORIA)) ∧
      t = aposMemoria o s := by
  unfold operar_memoria
  constructor
  · intro h
    obtain ⟨s1, h1, h⟩ := Option.bind_eq_some.mp h
    obtain ⟨s2, h2, h3⟩ := Option.bind_eq_some.mp h
    obtain ⟨a1, e1⟩ := (buscar_iff s s1).mp h1
    subst e1
    obtain ⟨a2, e2⟩ := (lerMemoria_iff o _ s2).mp h2
    subst e2
    obtain ⟨a3, e3⟩ := (escreverMemoria_iff o _ t).mp h3
    subst e3
    exact ⟨⟨a1, a2, a3⟩, rfl⟩
  · rintro ⟨⟨a1, a2, a3⟩, rfl⟩
    refine Option.bind_eq_some.mpr ⟨_, (buscar_iff s _).mpr ⟨a1, rfl⟩, ?_⟩
    refine Option.bind_eq_some.mpr ⟨_, (lerMemoria_iff o _ _).mpr ⟨a2, rfl⟩, ?_⟩
    exact (escreverMemoria_iff o _ _).mpr ⟨a3, rfl⟩

theorem ciclo_iff (o : Ordem) (s t : Estado) :
    ciclo o s = some t ↔
      (s.MPC < TAM_MICROPROG ∧
        ((antesDaMemoria s).MIR_MEM &&& 0b001 ≠ 0 →
          (antesDaMemoria s).PC < TAM_MEMORIA) ∧
        ((antesDaMemoria s).MIR_MEM &&& 0b010 ≠ 0 →
          enderecoPalavra (antesDaMemoria s).MAR + 3 < TAM_MEMORIA) ∧
        ((antesDaMemoria s).MIR_MEM &&& 0b100 ≠ 0 →
          enderecoPalavra (antesDaMemoria s).MAR + 3 < TAM_MEMORIA)) ∧
      t = pular (aposMemoria o (antesDaMemoria s)) := by
  rw [ciclo_eq]
  by_cases hm : s.MPC < TAM_MICROPROG
  · rw [if_pos hm, Option.map_eq_some']
    constructor
    · rintro ⟨u, hu, rfl⟩
      obtain ⟨hc, rfl⟩ := (operar_memoria_iff o _ u).mp hu
      exact ⟨⟨hm, hc⟩, rfl⟩
    · rintro ⟨⟨_, hc⟩, rfl⟩
      exact ⟨_, (operar_memoria_iff o _ _).mpr ⟨hc, rfl⟩, rfl⟩
  · rw [if_neg hm]
    constructor
    · intro h; cases h
    · rintro ⟨⟨h, _⟩, _⟩; exact absurd h hm

/-- C9: one micro-cycle is `MIR := armazenamento[MPC]`, decode, B bus, ALU with
flags and shifter, C bus, memory access, next address, in this order. It returns
a state exactly when `MPC` is inside the control store and the requested memory
accesses are inside memory, and in the state `t` it returns: the B bus is the
selected register as it was before the cycle; the flags and the C bus come from
this cycle's ALU on the old `H`; fetch and word access use `PC` and `MAR` as they
are after the C-bus distribution, on the memory from before the cycle; and `MPC`
is resolved from this cycle's flags and the `MBR` after the fetch. -/
theorem ciclo_ordem (o : Ordem) (s : Estado) :
    ciclo o s =
      (if s.MPC < TAM_MICROPROG then
        (operar_memoria o (atribuir_barramento_C (realizar_operacao_ALU
          (atribuir_barramento_B (decodificar_microinstrucao
            { s with MIR := s.armazenamento s.MPC }))))).map pular
      else none) ∧
    ((∃ t, ciclo o s = some t) ↔
      s.MPC < TAM_MICROPROG ∧
      ((s.armazenamento s.MPC / 16 % 8).testBit 0 = true →
        (antesDaMemoria s).PC < TAM_MEMORIA) ∧
      ((s.armazenamento s.MPC / 16 % 8).testBit 1 = true →
        enderecoPalavra (antesDaMemoria s).MAR + 3 < TAM_MEMORIA) ∧
      ((s.armazenamento s.MPC / 16 % 8).testBit 2 = true →
        enderecoPalavra (antesDaMemoria s).MAR + 3 < TAM_MEMORIA)) ∧
    ∀ t, ciclo o s = some t →
      t.MIR = s.armazenamento s.MPC ∧
      t.barramento_B = valorBarramentoB { s with MIR_B := s.armazenamento s.MPC % 16 } ∧
      t.N = (if operacaoALU (s.armazenamento s.MPC / 65536 % 64) s.H t.barramento_B = 0
        then 0 else 1) ∧
      t.Z = (if operacaoALU (s.armazenamento s.MPC / 65536 % 64) s.H t.barramento_B = 0
        then 1 else 0) ∧
      t.barramento_C = deslocar (s.armazenamento s.MPC / 4194304 % 4)
        (operacaoALU (s.armazenamento s.MPC / 65536 % 64) s.H t.barramento_B) ∧
      t.MAR = (if (s.armazenamento s.MPC / 128 % 512).testBit 0 = true
        then t.barramento_C else s.MAR) ∧
      t.PC = (if (s.armazenamento s.MPC / 128 % 512).testBit 2 = true
        then t.barramento_C else s.PC) ∧
      t.H = (if (s.armazenamento s.MPC / 128 % 512).testBit 8 = true
        then t.barramento_C else s.H) ∧
      t.MBR = (if (s.armazenamento s.MPC / 16 % 8).testBit 0 = true
        then s.memoria t.PC else s.MBR) ∧
      t.MDR = (if (s.armazenamento s.MPC / 16 % 8).testBit 1 = true
        then lerPalavra o s.memoria (enderecoPalavra t.MAR)
        else if (s.armazenamento s.MPC / 128 % 512).testBit 1 = true
          then t.barramento_C else s.MDR) ∧
      t.memoria = (if (s.armazenamento s.MPC / 16 % 8).testBit 2 = true
        then escreverPalavra o s.memoria (enderecoPalavra t.MAR) t.MDR else s.memoria) ∧
      t.MPC = s.armazenamento s.MPC / 134217728 % 512
        ||| (if (s.armazenamento s.MPC / 16777216 % 8).testBit 0 = true ∧ t.N = 1
          then 256 else 0)
        ||| (if (s.armazenamento s.MPC / 16777216 % 8).testBit 1 = true ∧ t.Z = 1
          then 256 else 0)
        ||| (if (s.armazenamento s.MPC / 16777216 % 8).testBit 2 = true
          then t.MBR else 0) := by
  obtain ⟨c1, c2, c3, c4, c5, c6, c7⟩ := campos_lit (s.armazenamento s.MPC)
  obtain ⟨hN, hZ⟩ := antesDaMemoria_flags s
  have hmm : (antesDaMemoria s).MIR_MEM = s.armazenamento s.MPC / 16 % 8 := c2
  have hB : valorBarramentoB (decodificar_microinstrucao
      { s with MIR := s.armazenamento s.MPC }) =
      valorBarramentoB { s with MIR_B := s.armazenamento s.MPC % 16 } := by
    simp only [valorBarramentoB, decodificar_microinstrucao, c1]
  refine ⟨rfl, ?_, ?_⟩
  · rw [← hmm, ← and_1_ne_zero, ← and_2_ne_zero, ← and_4_ne_zero]
    constructor
    · rintro ⟨t, ht⟩
      exact ((ciclo_iff o s t).mp ht).1
    · intro hc
      exact ⟨_, (ciclo_iff o s _).mpr ⟨hc, rfl⟩⟩
  intro t ht
  obtain ⟨_, rfl⟩ := (ciclo_iff o s t).mp ht
  refine ⟨rfl, hB, ?_, ?_, ?_, ?_, ?_, ?_, ?_, ?_, ?_, ?_⟩
  · simp only [pular, aposMemoria, antesDaMemoria, atribuir_barramento_C,
      realizar_operacao_ALU, atribuir_barramento_B, decodificar_microinstrucao, c4]
  · simp only [pular, aposMemoria, antesDaMemoria, atribuir_barramento_C,
      realizar_operacao_ALU, atribuir_barramento_B, decodificar_microinstrucao, c4]
  · simp only [pular, aposMemoria, antesDaMemoria, atribuir_barramento_C,
      realizar_operacao_ALU, atribuir_barramento_B, decodificar_microinstrucao, c4, c5]
  · simp only [pular, aposMemoria, antesDaMemoria, atribuir_barramento_C,
      realizar_operacao_ALU, atribuir_barramento_B, decodificar_microinstrucao, c3, and_1_ne_zero]
  · simp only [pular, aposMemoria, antesDaMemoria, atribuir_barramento_C,
      realizar_operacao_ALU, atribuir_barramento_B, decodificar_microinstrucao, c3, and_4_ne_zero]
  · simp only [pular, aposMemoria, antesDaMemoria, atribuir_barramento_C,
      realizar_operacao_ALU, atribuir_barramento_B, decodificar_microinstrucao, c3, and_256_ne_zero]
  · simp only [pular, aposMemoria, antesDaMemoria, atribuir_barramento_C,
      realizar_operacao_ALU, atribuir_barramento_B, decodificar_microinstrucao, c2, and_1_ne_zero]
  · simp only [pular, aposMemoria, antesDaMemoria, atribuir_barramento_C,
      realizar_operacao_ALU, atribuir_barramento_B, decodificar_microinstrucao, c2, c3, and_2_ne_zero]
  · simp only [pular, aposMemoria, antesDaMemoria, atribuir_barramento_C,
      realizar_operacao_ALU, atribuir_barramento_B, decodificar_microinstrucao, c2, c3, and_2_ne_zero, and_4_ne_zero]
  · have hp := pular_MPC (aposMemoria o (antesDaMemoria s)) hN hZ
    rw [hp]
    simp only [pular, aposMemoria, antesDaMemoria, atribuir_barramento_C,
      realizar_operacao_ALU, atribuir_barramento_B, decodificar_microinstrucao, c2, c6, c7,
      and_1_ne_zero]

/-- Instance of `ciclo_ordem` at `estadoExemplo` (`H = 7`, `MDR = 5`, every
microinstruction `H := H + MDR + 1; goto 5 | N`): the cycle returns a state, the
B bus carries the old `MDR`, `H` becomes `13` and the next address is
`5 OR 256 = 261`. -/
theorem ciclo_ordem_witness :
    ∃ t, ciclo Ordem.little estadoExemplo = some t ∧ t.barramento_B = 5 ∧ t.H = 13 ∧
      t.N = 1 ∧ t.MPC = 261 := by
  obtain ⟨_, hex, hprop⟩ := ciclo_ordem Ordem.little estadoExemplo
  obtain ⟨t, ht⟩ := hex.mpr (by decide)
  obtain ⟨_, hB, hN, hZ, hC, _, hPCr, hH, hMBR, _, _, hMPCr⟩ := hprop t ht
  have hB2 : t.barramento_B = 5 := by rw [hB]; decide
  have hC2 : t.barramento_C = 13 := by rw [hC, hB2]; decide
  have hN2 : t.N = 1 := by rw [hN, hB2]; decide
  have hZ2 : t.Z = 0 := by rw [hZ, hB2]; decide
  refine ⟨t, ht, hB2, ?_, hN2, ?_⟩
  · rw [hH, hC2]; decide
  · rw [hMPCr, hMBR, hPCr, hC2, hN2, hZ2]; decide

/-! ## Control-store address invariant -/

theorem buscar_some (s t : Estado) (h : buscar s = some t) :
    t = s ∨ t = { s with MBR := s.memoria s.PC } := by
  unfold buscar at h
  split at h
  · split at h
    · right; exact (Option.some.inj h).symm
    · cases h
  · left; exact (Option.some.inj h).symm

theorem lerMemoria_some (o : Ordem) (s t : Estado) (h : lerMemoria o s = some t) :
    t = s ∨ t = { s with MDR := lerPalavra o s.memoria (enderecoPalavra s.MAR) } := by
  unfold lerMemoria at h
  split at h
  · split at h
    · right; exact (Option.some.inj h).symm
    · cases h
  · left; exact (Option.some.inj h).symm

theorem escreverMemoria_some (o : Ordem) (s t : Estado)
    (h : escreverMemoria o s = some t) :
    t = s ∨
    t = { s with memoria := escreverPalavra o s.memoria (enderecoPalavra s.MAR) s.MDR } := by
  unfold escreverMemoria at h
  split at h
  · split at h
    · right; exact (Option.some.inj h).symm
    · cases h
  · left; exact (Option.some.inj h).symm

theorem byteDaPalavra_lt (o : Ordem) (w i : Nat) : byteDaPalavra o w i < 256 := by
  cases o <;> exact Nat.mod_lt _ (by decide)

theorem escreverPalavra_lt (o : Ordem) (mem : Nat → Nat) (a w : Nat)
    (hmem : ∀ x, mem x < 256) : ∀ x, escreverPalavra o mem a w x < 256 := by
  intro x
  unfold escreverPalavra
  split
  · exact byteDaPalavra_lt o w _
  · exact hmem x

theorem operar_memoria_quadro (o : Ordem) (s t : Estado)
    (h : operar_memoria o s = some t) :
    t.N = s.N ∧ t.Z = s.Z ∧ t.MPC = s.MPC ∧ t.MIR_pulo = s.MIR_pulo ∧
    t.armazenamento = s.armazenamento ∧
    (s.MBR < 256 → (∀ a, s.memoria a < 256) → t.MBR < 256 ∧ ∀ a, t.memoria a < 256) := by
  unfold operar_memoria at h
  obtain ⟨s1, h1, h⟩ := Option.bind_eq_some.mp h
  obtain ⟨s2, h2, h3⟩ := Option.bind_eq_some.mp h
  have e1 := buscar_some s s1 h1
  have e2 := lerMemoria_some o s1 s2 h2
  have e3 := escreverMemoria_some o s2 t h3
  have f1 : s1.N = s.N ∧ s1.Z = s.Z ∧ s1.MPC = s.MPC ∧ s1.MIR_pulo = s.MIR_pulo ∧
      s1.armazenamento = s.armazenamento ∧ s1.memoria = s.memoria ∧
      (s1.MBR = s.MBR ∨ s1.MBR = s.memoria s.PC) := by
    rcases e1 with e | e <;> subst e
    · exact ⟨rfl, rfl, rfl, rfl, rfl, rfl, Or.inl rfl⟩
    · exact ⟨rfl, rfl, rfl, rfl, rfl, rfl, Or.inr rfl⟩
  have f2 : s2.N = s1.N ∧ s2.Z = s1.Z ∧ s2.MPC = s1.MPC ∧ s2.MIR_pulo = s1.MIR_pulo ∧
      s2.armazenamento = s1.armazenamento ∧ s2.memoria = s1.memoria ∧
      s2.MBR = s1.MBR := by
    rcases e2 with e | e <;> subst e <;> exact ⟨rfl, rfl, rfl, rfl, rfl, rfl, rfl⟩
  have f3 : t.N = s2.N ∧ t.Z = s2.Z ∧ t.MPC = s2.MPC ∧ t.MIR_pulo = s2.MIR_pulo ∧
      t.armazenamento = s2.armazenamento ∧ t.MBR = s2.MBR ∧
      ((∀ a, s2.memoria a < 256) → ∀ a, t.memoria a < 256) := by
    rcases e3 with e | e <;> subst e
    · exact ⟨rfl, rfl, rfl, rfl, rfl, rfl, fun hm => hm⟩
    · exact ⟨rfl, rfl, rfl, rfl, rfl, rfl, fun hm => escreverPalavra_lt o _ _ _ hm⟩
  obtain ⟨a1, a2, a3, a4, a5, a6, a7⟩ := f1
  obtain ⟨b1, b2, b3, b4, b5, b6, b7⟩ := f2
  obtain ⟨c1, c2, c3, c4, c5, c6, c7⟩ := f3
  refine ⟨by rw [c1, b1, a1], by rw [c2, b2, a2], by rw [c3, b3, a3],
    by rw [c4, b4, a4], by rw [c5, b5, a5], ?_⟩
  intro hMBR hmem
  constructor
  · rw [c6, b7]
    rcases a7 with e | e
    · rw [e]; exact hMBR
    · rw [e]; exact hmem _
  · apply c7
    rw [b6, a6]
    exact hmem

theorem complemento_lt (s : Estado) (hN : s.N ≤ 1) (hZ : s.Z ≤ 1) (hMBR : s.MBR < 256) :
    complemento s < 2 ^ 9 := by
  rw [complemento_eq]
  have h1 : (if s.MIR_pulo.testBit 0 = true then s.N <<< 8 else 0) < 2 ^ 9 := by
    split
    · rw [Nat.shiftLeft_eq]; omega
    · omega
  have h2 : (if s.MIR_pulo.testBit 1 = true then s.Z <<< 8 else 0) < 2 ^ 9 := by
    split
    · rw [Nat.shiftLeft_eq]; omega
    · omega
  have h3 : (if s.MIR_pulo.testBit 2 = true then s.MBR else 0) < 2 ^ 9 := by
    split <;> omega
  exact Nat.or_lt_two_pow (Nat.or_lt_two_pow h1 h2) h3

/-- One iteration of the loop of `main` establishes: `MPC` addresses the control
store, the flags are `0` or `1`, and `MBR` and every memory cell hold a byte. -/
theorem ciclo_invariante (o : Ordem) (s t : Estado) (h : ciclo o s = some t)
    (hMBR : s.MBR < 256)
    (hmem : ∀ a, s.memoria a < 256) :
    t.MPC < 512 ∧ t.N ≤ 1 ∧ t.Z ≤ 1 ∧ t.MBR < 256 ∧ (∀ a, t.memoria a < 256) ∧
    t.armazenamento = s.armazenamento := by
  rw [ciclo_eq] at h
  split at h
  · obtain ⟨u, hu, ht⟩ := Option.map_eq_some'.mp h
    obtain ⟨q1, q2, q3, q4, q5, q6⟩ := operar_memoria_quadro o _ u hu
    obtain ⟨fN, fZ⟩ := antesDaMemoria_flags s
    have hMPC : (antesDaMemoria s).MPC < 2 ^ 9 := by
      show (s.armazenamento s.MPC >>> 27) &&& 0b111111111 < 2 ^ 9
      rw [(campos_lit (s.armazenamento s.MPC)).2.2.2.2.2.2]
      exact Nat.mod_lt _ (by decide)
    have hb := q6 hMBR hmem
    have huN : u.N ≤ 1 := by rw [q1]; exact fN
    have huZ : u.Z ≤ 1 := by rw [q2]; exact fZ
    have hc := complemento_lt u huN huZ hb.1
    subst ht
    refine ⟨?_, huN, huZ, hb.1, hb.2, q5⟩
    have hor : u.MPC ||| complemento u < 2 ^ 9 := by
      apply Nat.or_lt_two_pow _ hc
      rw [q3]; exact hMPC
    exact hor
  · cases h

/-- C10: in every state reachable from the initial state (all scalar variables
zero, any control store, any byte memory) by micro-cycles, `MPC ≤ 511`, so
`armazenamento[MPC]` is inside the 512-entry control store; `N` and `Z` are each
`0` or `1` in every such state. -/
theorem mpc_dentro (o : Ordem) (arm mem : Nat → Nat) (hmem : ∀ a, mem a < 256)
    (s : Estado) (h : Alcancavel o (estadoInicial arm mem) s) :
    s.MPC ≤ 511 ∧ s.MPC < TAM_MICROPROG ∧ (s.N = 0 ∨ s.N = 1) ∧ (s.Z = 0 ∨ s.Z = 1) := by
  have inv : s.MPC < 512 ∧ s.N ≤ 1 ∧ s.Z ≤ 1 ∧ s.MBR < 256 ∧ ∀ a, s.memoria a < 256 := by
    induction h with
    | inicio =>
      refine ⟨?_, ?_, ?_, ?_, hmem⟩ <;> simp [estadoInicial]
    | passo _ hc ih =>
      obtain ⟨_, _, _, i4, i5⟩ := ih
      obtain ⟨j1, j2, j3, j4, j5, _⟩ := ciclo_invariante o _ _ hc i4 i5
      exact ⟨j1, j2, j3, j4, j5⟩
  obtain ⟨i1, i2, i3, _, _⟩ := inv
  refine ⟨by omega, ?_, by omega, by omega⟩
  unfold TAM_MICROPROG
  exact i1

/-- Instance of `mpc_dentro`: from the zero state with every microinstruction
`H := H + MDR + 1; goto 5 | N`, one cycle leads to `MPC = 261`, which is below
`512`. -/
theorem mpc_dentro_witness :
    (∀ a : Nat, (fun _ : Nat => 0) a < 256) ∧
    (pular (antesDaMemoria
      (estadoInicial (fun _ => montar 0 0 256 61 0 1 5) (fun _ => 0)))).MPC = 261 ∧
    (pular (antesDaMemoria
      (estadoInicial (fun _ => montar 0 0 256 61 0 1 5) (fun _ => 0)))).MPC ≤ 511 :=
  ⟨fun _ => (by decide : (0 : Nat) < 256), by decide,
    (mpc_dentro Ordem.little (fun _ => montar 0 0 256 61 0 1 5) (fun _ => 0)
      (fun _ => (by decide : (0 : Nat) < 256)) _
      (Alcancavel.passo Alcancavel.inicio rfl)).1⟩

/-! ## Word round trip -/

theorem palavraDeBytes_byteDaPalavra (o : Ordem) (v : Nat) (hv : v < 4294967296) :
    palavraDeBytes o (byteDaPalavra o v 0) (byteDaPalavra o v 1) (byteDaPalavra o v 2)
      (byteDaPalavra o v 3) = v := by
  cases o
  · simp only [byteDaPalavra, palavraDeBytes]
    norm_num
    omega
  · simp only [byteDaPalavra, palavraDeBytes]
    norm_num
    omega

theorem lerPalavra_escreverPalavra (o : Ordem) (mem : Nat → Nat) (a v : Nat)
    (hv : v < 4294967296) : lerPalavra o (escreverPalavra o mem a v) a = v := by
  have h0 : escreverPalavra o mem a v a = byteDaPalavra o v 0 := by
    simp only [escreverPalavra]
    rw [if_pos (by omega), Nat.sub_self]
  have h1 : escreverPalavra o mem a v (a + 1) = byteDaPalavra o v 1 := by
    simp only [escreverPalavra]
    rw [if_pos (by omega), Nat.add_sub_cancel_left]
  have h2 : escreverPalavra o mem a v (a + 2) = byteDaPalavra o v 2 := by
    simp only [escreverPalavra]
    rw [if_pos (by omega), Nat.add_sub_cancel_left]
  have h3 : escreverPalavra o mem a v (a + 3) = byteDaPalavra o v 3 := by
    simp only [escreverPalavra]
    rw [if_pos (by omega), Nat.add_sub_cancel_left]
  unfold lerPalavra
  rw [h0, h1, h2, h3]
  exact palavraDeBytes_byteDaPalavra o v hv

theorem so_escrita (o : Ordem) (s : Estado) (v : Nat)
    (hMAR : 4 * s.MAR + 3 < TAM_MEMORIA) :
    operar_memoria o { s with MIR_MEM := 4, MDR := v } =
      some { s with MIR_MEM := 4, MDR := v,
                    memoria := escreverPalavra o s.memoria (enderecoPalavra s.MAR) v } := by
  have he := enderecoPalavra_eq s.MAR hMAR
  have ea : { s with MIR_MEM := 4, MDR := v,
                     memoria := escreverPalavra o s.memoria (enderecoPalavra s.MAR) v } =
      aposMemoria o { s with MIR_MEM := 4, MDR := v } := by
    have a2 : (4 : Nat) &&& 2 = 0 := by decide
    simp [aposMemoria, a2]
  refine (operar_memoria_iff o _ _).mpr ⟨⟨?_, ?_, ?_⟩, ea⟩
  · intro h; exact absurd (show (4 : Nat) &&& 1 = 0 from rfl) h
  · intro h; exact absurd (show (4 : Nat) &&& 2 = 0 from rfl) h
  · intro _
    show enderecoPalavra s.MAR + 3 < TAM_MEMORIA
    rw [he]; exact hMAR

theorem so_leitura (o : Ordem) (s : Estado) (x : Nat)
    (hMAR : 4 * s.MAR + 3 < TAM_MEMORIA) :
    operar_memoria o { s with MIR_MEM := 2, MDR := x } =
      some { s with MIR_MEM := 2,
                    MDR := lerPalavra o s.memoria (enderecoPalavra s.MAR) } := by
  have he := enderecoPalavra_eq s.MAR hMAR
  have ea : { s with MIR_MEM := 2,
                     MDR := lerPalavra o s.memoria (enderecoPalavra s.MAR) } =
      aposMemoria o { s with MIR_MEM := 2, MDR := x } := by
    have a4 : (2 : Nat) &&& 4 = 0 := by decide
    simp [aposMemoria, a4]
  refine (operar_memoria_iff o _ _).mpr ⟨⟨?_, ?_, ?_⟩, ea⟩
  · intro h; exact absurd (show (2 : Nat) &&& 1 = 0 from rfl) h
  · intro _
    show enderecoPalavra s.MAR + 3 < TAM_MEMORIA
    rw [he]; exact hMAR
  · intro h; exact absurd (show (2 : Nat) &&& 4 = 0 from rfl) h

/-- C11: word write then read is a round trip. With `4*MAR+3` inside memory and
a 32-bit `v`, `operar_memoria` with only the write bit and `MDR = v` returns a
state; after `MDR` is replaced by any `x`, `operar_memoria` with only the read
bit and the same `MAR` returns a state whose `MDR` is `v`. -/
theorem escrita_leitura (o : Ordem) (s : Estado) (v x : Nat)
    (hMAR : 4 * s.MAR + 3 < TAM_MEMORIA) (hv : v < 4294967296) :
    ∃ t1, operar_memoria o { s with MIR_MEM := 4, MDR := v } = some t1 ∧
      t1.MAR = s.MAR ∧
      ∃ t2, operar_memoria o { t1 with MIR_MEM := 2, MDR := x } = some t2 ∧
        t2.MDR = v ∧ t2.MAR = s.MAR := by
  refine ⟨_, so_escrita o s v hMAR, rfl, ?_⟩
  refine ⟨_, so_leitura o _ x hMAR, ?_, rfl⟩
  exact lerPalavra_escreverPalavra o s.memoria (enderecoPalavra s.MAR) v hv

/-- Instance of `escrita_leitura` at `estadoMemoria` (`MAR = 3`) on a big-endian
host with `v = 0xDEADBEEF` and `MDR` overwritten by `0` in between. -/
theorem escrita_leitura_witness :
    (4 * estadoMemoria.MAR + 3 < TAM_MEMORIA ∧ 3735928559 < 4294967296) ∧
    ∃ t1, operar_memoria Ordem.big { estadoMemoria with MIR_MEM := 4, MDR := 3735928559 }
        = some t1 ∧
      ∃ t2, operar_memoria Ordem.big { t1 with MIR_MEM := 2, MDR := 0 } = some t2 ∧
        t2.MDR = 3735928559 := by
  obtain ⟨t1, h1, _, t2, h2, h3, _⟩ :=
    escrita_leitura Ordem.big estadoMemoria 3735928559 0 (by decide) (by decide)
  exact ⟨⟨by decide, by decide⟩, t1, h1, t2, h2, h3⟩

/-! ## Memory frame -/

theorem escreverPalavra_fora (o : Ordem) (mem : Nat → Nat) (a w x : Nat)
    (hx : x < a ∨ a + 4 ≤ x) : escreverPalavra o mem a w x = mem x := by
  simp only [escreverPalavra]
  rw [if_neg (by omega)]

theorem ciclo_envolto :
    ciclo Ordem.little estadoEnvolto =
      some (pular (aposMemoria Ordem.little (antesDaMemoria estadoEnvolto))) :=
  (ciclo_iff Ordem.little estadoEnvolto _).mpr
    ⟨⟨by decide, by decide, by decide, by decide⟩, rfl⟩

theorem ciclo_memoria (o : Ordem) (s t : Estado) (h : ciclo o s = some t) :
    t.memoria =
      (if (s.armazenamento s.MPC / 16 % 8).testBit 2 = true then
        escreverPalavra o s.memoria (enderecoPalavra t.MAR) t.MDR
      else s.memoria) ∧
    t.armazenamento = s.armazenamento := by
  obtain ⟨_, rfl⟩ := (ciclo_iff o s t).mp h
  have c2 : (antesDaMemoria s).MIR_MEM = s.armazenamento s.MPC / 16 % 8 :=
    (campos_lit (s.armazenamento s.MPC)).2.1
  refine ⟨?_, rfl⟩
  have hraw : (pular (aposMemoria o (antesDaMemoria s))).memoria =
      if (antesDaMemoria s).MIR_MEM &&& 0b100 ≠ 0 then
        escreverPalavra o s.memoria
          (enderecoPalavra (pular (aposMemoria o (antesDaMemoria s))).MAR)
          (pular (aposMemoria o (antesDaMemoria s))).MDR
      else s.memoria := rfl
  rw [hraw]
  by_cases hc : (antesDaMemoria s).MIR_MEM &&& 0b100 ≠ 0
  · have hb := (and_4_ne_zero _).mp hc
    rw [c2] at hb
    rw [if_pos hc, if_pos hb]
  · have hb : ¬ (s.armazenamento s.MPC / 16 % 8).testBit 2 = true := by
      intro h2
      rw [← c2] at h2
      exact hc ((and_4_ne_zero _).mpr h2)
    rw [if_neg hc, if_neg hb]

/-- C12 (counterexample): at `estadoEnvolto` (`MAR = 2^30`, write requested) the
cycle returns a state whose memory byte 0 differs from the byte before the
cycle, although offset 0 is outside `4*MAR .. 4*MAR+3`. -/
theorem memoria_quadro_contraexemplo :
    ∃ t, ciclo Ordem.little estadoEnvolto = some t ∧
      (0 < 4 * t.MAR ∨ 4 * t.MAR + 4 ≤ 0) ∧
      t.memoria 0 ≠ estadoEnvolto.memoria 0 :=
  ⟨_, ciclo_envolto, by decide, by decide⟩

/-- C12 (amended): after a micro-cycle every memory byte outside the four bytes
starting at `(MAR * 4) mod 2^32` (`MAR` after the C-bus distribution; this is
`4*MAR` when `MAR < 2^30`) keeps its value; with bit 2 of `mem_ops` clear the
whole memory is unchanged; the control store is unchanged. -/
theorem memoria_so_escrita (o : Ordem) (s t : Estado) (h : ciclo o s = some t) :
    (∀ a, a < enderecoPalavra t.MAR ∨ enderecoPalavra t.MAR + 4 ≤ a →
      t.memoria a = s.memoria a) ∧
    ((s.armazenamento s.MPC / 16 % 8).testBit 2 = false → t.memoria = s.memoria) ∧
    t.armazenamento = s.armazenamento ∧
    enderecoPalavra t.MAR = (t.MAR * 4) % 4294967296 ∧
    (t.MAR < 1073741824 → enderecoPalavra t.MAR = 4 * t.MAR) := by
  obtain ⟨hm, ha⟩ := ciclo_memoria o s t h
  refine ⟨?_, ?_, ha, rfl, ?_⟩
  · intro a hx
    rw [hm]
    split
    · exact escreverPalavra_fora o s.memoria _ _ a hx
    · rfl
  · intro hb
    rw [hm, hb]
    rfl
  · intro hlt
    unfold enderecoPalavra
    omega

/-- Instance of `memoria_so_escrita` at `estadoEnvolto`: the cycle writes at
offset `(2^30 * 4) mod 2^32 = 0`, and byte 4 keeps its value. -/
theorem memoria_so_escrita_witness :
    ciclo Ordem.little estadoEnvolto =
      some (pular (aposMemoria Ordem.little (antesDaMemoria estadoEnvolto))) ∧
    (pular (aposMemoria Ordem.little (antesDaMemoria estadoEnvolto))).memoria 4 =
      estadoEnvolto.memoria 4 :=
  ⟨ciclo_envolto,
    (memoria_so_escrita Ordem.little estadoEnvolto _ ciclo_envolto).1 4
      (Or.inr (by decide))⟩

/-! ## Program loader -/

theorem carregar_falha (o : Ordem) (a : Arquivo) (mem : Nat → Nat) :
    (carregar_programa o (some a) mem).falha =
      if lidos a 0 4 ≠ 4 then some Falha.lerTamanho
      else if palavraDeBytes o (a.byte 0) (a.byte 1) (a.byte 2) (a.byte 3) > TAM_MEMORIA ∨
          palavraDeBytes o (a.byte 0) (a.byte 1) (a.byte 2) (a.byte 3) <
            TAM_PROGRAMA_INICIAL then
        some Falha.tamanhoInvalido
      else if lidos a 4 TAM_PROGRAMA_INICIAL ≠ TAM_PROGRAMA_INICIAL then
        some Falha.bytesIniciais
      else if lidos a 24
          (palavraDeBytes o (a.byte 0) (a.byte 1) (a.byte 2) (a.byte 3) -
            TAM_PROGRAMA_INICIAL) ≠
          palavraDeBytes o (a.byte 0) (a.byte 1) (a.byte 2) (a.byte 3) -
            TAM_PROGRAMA_INICIAL then
        some Falha.programaCompleto
      else none := by
  simp only [carregar_programa]
  split
  · rfl
  · split
    · rfl
    · split
      · rfl
      · split <;> rfl

theorem carregar_aceita (o : Ordem) (a : Arquivo) (mem : Nat → Nat)
    (h : (carregar_programa o (some a) mem).falha = none) :
    carregar_programa o (some a) mem =
      { falha := none
        memoria := copiar (copiar mem 0 a 4 TAM_PROGRAMA_INICIAL) 0x0401 a 24
          (palavraDeBytes o (a.byte 0) (a.byte 1) (a.byte 2) (a.byte 3) -
            TAM_PROGRAMA_INICIAL)
        escritas := [(0, TAM_PROGRAMA_INICIAL),
          (0x0401, palavraDeBytes o (a.byte 0) (a.byte 1) (a.byte 2) (a.byte 3) -
            TAM_PROGRAMA_INICIAL)] } := by
  simp only [carregar_programa] at h ⊢
  split at h
  · cases h
  · split at h
    · cases h
    · split at h
      · cases h
      · split at h
        · cases h
        · rename_i h1 h2 h3 h4
          have e3 : lidos a 4 TAM_PROGRAMA_INICIAL = TAM_PROGRAMA_INICIAL :=
            not_not.mp h3
          have e4 : lidos a 24
              (palavraDeBytes o (a.byte 0) (a.byte 1) (a.byte 2) (a.byte 3) -
                TAM_PROGRAMA_INICIAL) =
              palavraDeBytes o (a.byte 0) (a.byte 1) (a.byte 2) (a.byte 3) -
                TAM_PROGRAMA_INICIAL := not_not.mp h4
          rw [if_neg h1, if_neg h2, if_neg h3, if_neg h4, e3, e4]

theorem carregar_rejeita_sse (o : Ordem) (a : Arquivo) (mem : Nat → Nat) :
    (carregar_programa o (some a) mem).falha ≠ none ↔
      a.tam < 4 ∨
      palavraDeBytes o (a.byte 0) (a.byte 1) (a.byte 2) (a.byte 3) < 20 ∨
      100000000 < palavraDeBytes o (a.byte 0) (a.byte 1) (a.byte 2) (a.byte 3) ∨
      a.tam - 4 < palavraDeBytes o (a.byte 0) (a.byte 1) (a.byte 2) (a.byte 3) := by
  rw [carregar_falha]
  simp only [lidos, TAM_MEMORIA, TAM_PROGRAMA_INICIAL]
  split
  · simp only [ne_eq, reduceCtorEq, not_false_eq_true, true_iff]
    omega
  · split
    · simp only [ne_eq, reduceCtorEq, not_false_eq_true, true_iff]
      omega
    · split
      · simp only [ne_eq, reduceCtorEq, not_false_eq_true, true_iff]
        omega
      · split
        · simp only [ne_eq, reduceCtorEq, not_false_eq_true, true_iff]
          omega
        · simp only [ne_eq, not_true_eq_false, false_iff]
          omega

/-- C13: for an image whose length field `L` is at least 20, whose remainder of
`L - 20` bytes fits in memory from offset 1025 and which holds `L` bytes after
the length field, `carregar_programa` returns, `memoria[0..19]` holds file bytes
`4..23`, `memoria[1025 .. 1025+(L-20)-1]` holds file bytes `24 .. 3+L` in order,
and every other byte keeps its value. -/
theorem carga_disposicao (o : Ordem) (a : Arquivo) (mem : Nat → Nat)
    (hL : 20 ≤ campoTamanho o a)
    (hfit : 1025 + (campoTamanho o a - 20) ≤ TAM_MEMORIA)
    (hbytes : campoTamanho o a + 4 ≤ a.tam) :
    (carregar_programa o (some a) mem).falha = none ∧
    (∀ i, i < 20 → (carregar_programa o (some a) mem).memoria i = a.byte (4 + i)) ∧
    (∀ i, i < campoTamanho o a - 20 →
      (carregar_programa o (some a) mem).memoria (1025 + i) = a.byte (24 + i)) ∧
    (∀ x, (20 ≤ x ∧ x < 1025) ∨ 1025 + (campoTamanho o a - 20) ≤ x →
      (carregar_programa o (some a) mem).memoria x = mem x) ∧
    (carregar_programa o (some a) mem).escritas =
      [(0, 20), (1025, campoTamanho o a - 20)] := by
  unfold TAM_MEMORIA at hfit
  have hacc : (carregar_programa o (some a) mem).falha = none := by
    by_contra hne
    have hr := (carregar_rejeita_sse o a mem).mp hne
    unfold campoTamanho at hL hfit hbytes
    omega
  rw [carregar_aceita o a mem hacc]
  unfold campoTamanho
  simp only [copiar, TAM_PROGRAMA_INICIAL]
  refine ⟨trivial, ?_, ?_, ?_, trivial⟩
  · intro i hi
    rw [if_neg (by omega), if_pos (by omega), Nat.sub_zero]
  · intro i hi
    rw [if_pos (by omega), Nat.add_sub_cancel_left]
  · intro x hx
    rw [if_neg (by omega), if_neg (by omega)]

/-- Instance of `carga_disposicao` at `imagem25` (length field 25 on a
little-endian host): the 5 remaining bytes, file bytes 24..28, land at offsets
1025..1029 and the first 20 at offset 0. -/
theorem carga_disposicao_witness :
    (20 ≤ campoTamanho Ordem.little imagem25 ∧
      1025 + (campoTamanho Ordem.little imagem25 - 20) ≤ TAM_MEMORIA ∧
      campoTamanho Ordem.little imagem25 + 4 ≤ imagem25.tam) ∧
    campoTamanho Ordem.little imagem25 = 25 ∧
    (carregar_programa Ordem.little (some imagem25) (fun _ => 0)).memoria 0 = 4 ∧
    (carregar_programa Ordem.little (some imagem25) (fun _ => 0)).memoria 1025 = 24 ∧
    (carregar_programa Ordem.little (some imagem25) (fun _ => 0)).memoria 1029 = 28 ∧
    (carregar_programa Ordem.little (some imagem25) (fun _ => 0)).memoria 1030 = 0 := by
  obtain ⟨_, h1, h2, h3, _⟩ :=
    carga_disposicao Ordem.little imagem25 (fun _ => 0) (by decide) (by decide)
      (by decide)
  exact ⟨⟨by decide, by decide, by decide⟩, by decide, h1 0 (by decide),
    h2 0 (by decide), h2 4 (by decide), h3 1030 (Or.inr (by decide))⟩

/-- C14: `carregar_programa` takes a fatal exit on an existing image exactly when
the image has fewer than 4 bytes, or its length field `L` is below 20, or `L` is
above the memory capacity 100000000, or fewer than `L` bytes follow the length
field; `L = 19` is rejected and `L = 20` with an empty remainder is accepted. -/
theorem carga_rejeita (o : Ordem) (a : Arquivo) (mem : Nat → Nat) :
    ((carregar_programa o (some a) mem).falha ≠ none ↔
      a.tam < 4 ∨ campoTamanho o a < 20 ∨ 100000000 < campoTamanho o a ∨
      a.tam - 4 < campoTamanho o a) ∧
    (4 ≤ a.tam → campoTamanho o a = 19 →
      (carregar_programa o (some a) mem).falha = some Falha.tamanhoInvalido) ∧
    (a.tam = 24 → campoTamanho o a = 20 →
      (carregar_programa o (some a) mem).falha = none) ∧
    TAM_MEMORIA = 100000000 := by
  refine ⟨carregar_rejeita_sse o a mem, ?_, ?_, rfl⟩
  · intro h4 h19
    unfold campoTamanho at h19
    rw [carregar_falha, h19]
    simp only [lidos, TAM_MEMORIA, TAM_PROGRAMA_INICIAL]
    rw [if_neg (by omega), if_pos (by omega)]
  · intro ht h20
    by_contra hne
    have hr := (carregar_rejeita_sse o a mem).mp hne
    unfold campoTamanho at h20
    omega

/-- Instance of `carga_rejeita` at `imagem25`: 29 bytes with length field 25 are
accepted, and the same content cut to 28 bytes is rejected. -/
theorem carga_rejeita_witness :
    (carregar_programa Ordem.little (some imagem25) (fun _ => 0)).falha = none ∧
    (carregar_programa Ordem.little (some { imagem25 with tam := 28 })
      (fun _ => 0)).falha ≠ none := by
  constructor
  · by_contra hne
    have hr := (carga_rejeita Ordem.little imagem25 (fun _ => 0)).1.mp hne
    revert hr
    decide
  · exact (carga_rejeita Ordem.little { imagem25 with tam := 28 } (fun _ => 0)).1.mpr
      (by decide)

/-- C18 (failing input): `imagemCheia` has length field 100000000, equal to the
memory capacity, and all its bytes are present, so `carregar_programa` accepts
it; the second `fread` stores 99999980 bytes from offset 1025, ending at offset
100001005, and the byte at offset 100000000, outside `memoria`, is written. -/
theorem carga_transborda :
    campoTamanho Ordem.little imagemCheia = 100000000 ∧
    imagemCheia.tam - 4 = 100000000 ∧
    (carregar_programa Ordem.little (some imagemCheia) (fun _ => 0)).falha = none ∧
    (carregar_programa Ordem.little (some imagemCheia) (fun _ => 0)).escritas =
      [(0, 20), (1025, 99999980)] ∧
    TAM_MEMORIA < 1025 + 99999980 ∧
    (carregar_programa Ordem.little (some imagemCheia) (fun _ => 0)).memoria
      TAM_MEMORIA = 1 := by
  decide

/-! ## Word addressing -/

/-- C15 (counterexample): with `MAR = 2^30` the exact product `MAR * 4` is
`2^32`, but the read of `operar_memoria` returns the word at byte offset 0 and
not the word at byte offset `MAR * 4`. -/
theorem endereco_contraexemplo :
    ∃ t, operar_memoria Ordem.little estadoLeituraEnvolta = some t ∧
      estadoLeituraEnvolta.MAR * 4 = 4294967296 ∧
      t.MDR = lerPalavra Ordem.little estadoLeituraEnvolta.memoria 0 ∧
      t.MDR ≠ lerPalavra Ordem.little estadoLeituraEnvolta.memoria
        (estadoLeituraEnvolta.MAR * 4) :=
  ⟨aposMemoria Ordem.little estadoLeituraEnvolta,
    (operar_memoria_iff Ordem.little estadoLeituraEnvolta _).mpr
      ⟨⟨by decide, by decide, by decide⟩, rfl⟩,
    by decide, by decide, by decide⟩

/-- C15 (amended): the word read and the word write of `operar_memoria` access
the four bytes starting at byte offset `(MAR * 4) mod 2^32`, which is the exact
product `MAR * 4` when `MAR < 2^30`; the fetch addresses memory at byte offset
`PC`. -/
theorem endereco_palavra (o : Ordem) (s t : Estado) (h : operar_memoria o s = some t) :
    (s.MIR_MEM.testBit 1 = true →
      t.MDR = lerPalavra o s.memoria ((s.MAR * 4) % 4294967296)) ∧
    (s.MIR_MEM.testBit 2 = true →
      t.memoria = escreverPalavra o s.memoria ((s.MAR * 4) % 4294967296) t.MDR) ∧
    (s.MIR_MEM.testBit 0 = true → t.MBR = s.memoria s.PC) ∧
    (s.MAR < 1073741824 → (s.MAR * 4) % 4294967296 = s.MAR * 4) := by
  obtain ⟨_, rfl⟩ := (operar_memoria_iff o s t).mp h
  refine ⟨?_, ?_, ?_, ?_⟩
  · intro hb
    have hc := (and_2_ne_zero _).mpr hb
    show (if s.MIR_MEM &&& 0b010 ≠ 0 then
        lerPalavra o s.memoria (enderecoPalavra s.MAR) else s.MDR) = _
    rw [if_pos hc]
    rfl
  · intro hb
    have hc := (and_4_ne_zero _).mpr hb
    show (if s.MIR_MEM &&& 0b100 ≠ 0 then
        escreverPalavra o s.memoria (enderecoPalavra s.MAR)
          (if s.MIR_MEM &&& 0b010 ≠ 0 then
            lerPalavra o s.memoria (enderecoPalavra s.MAR) else s.MDR)
        else s.memoria) = _
    rw [if_pos hc]
    rfl
  · intro hb
    have hc := (and_1_ne_zero _).mpr hb
    show (if s.MIR_MEM &&& 0b001 ≠ 0 then s.memoria s.PC else s.MBR) = _
    rw [if_pos hc]
  · intro hlt
    omega

/-- Instance of `endereco_palavra` at `estadoMemoria` (`MAR = 3`, `PC = 2`, all
three bits set): the read takes the word at byte offset 12 and the fetch the
byte at offset 2. -/
theorem endereco_palavra_witness :
    operar_memoria Ordem.little estadoMemoria =
      some (aposMemoria Ordem.little estadoMemoria) ∧
    (aposMemoria Ordem.little estadoMemoria).MDR =
      lerPalavra Ordem.little estadoMemoria.memoria 12 ∧
    (aposMemoria Ordem.little estadoMemoria).MBR = estadoMemoria.memoria 2 :=
  have h : operar_memoria Ordem.little estadoMemoria =
      some (aposMemoria Ordem.little estadoMemoria) :=
    (operar_memoria_iff Ordem.little estadoMemoria _).mpr
      ⟨⟨by decide, by decide, by decide⟩, rfl⟩
  ⟨h, (endereco_palavra Ordem.little estadoMemoria _ h).1 (by decide),
    (endereco_palavra Ordem.little estadoMemoria _ h).2.2.1 (by decide)⟩

/-! ## Number of ALU operations -/

theorem operacaoALU_fora (op h b : Nat) (hop : op ∉ codigosALU) :
    operacaoALU op h b = 0 := by
  simp only [codigosALU, List.mem_cons, List.mem_singleton, List.not_mem_nil, or_false,
    not_or] at hop
  unfold operacaoALU
  simp only [hop, if_false]

theorem operacaoALU_dentro (op : Nat) (hop : op ∈ codigosALU) :
    ∃ h b, operacaoALU op h b ≠ 0 := by
  simp only [codigosALU, List.mem_cons, List.mem_singleton, List.not_mem_nil,
    or_false] at hop
  rcases hop with e | e | e | e | e | e | e | e | e | e | e | e | e | e | e <;> subst e
  · exact ⟨1, 1, by decide⟩
  · exact ⟨1, 1, by decide⟩
  · exact ⟨1, 1, by decide⟩
  · exact ⟨1, 1, by decide⟩
  · exact ⟨1, 1, by decide⟩
  · exact ⟨1, 1, by decide⟩
  · exact ⟨1, 1, by decide⟩
  · exact ⟨1, 1, by decide⟩
  · exact ⟨1, 1, by decide⟩
  · exact ⟨0, 0, by decide⟩
  · exact ⟨1, 1, by decide⟩
  · exact ⟨1, 1, by decide⟩
  · exact ⟨1, 1, by decide⟩
  · exact ⟨1, 1, by decide⟩
  · exact ⟨0, 1, by decide⟩

/-- C17 (counterexample): the number of operation codes in `0..63` that have a
`case` of their own in `realizar_operacao_ALU` is not 16. -/
theorem alu_dezesseis_contraexemplo :
    ((List.range 64).filter (fun op => decide (op ∈ codigosALU))).length ≠ 16 := by
  decide

/-- C17 (amended): exactly 15 of the 64 operation codes have a `case` of their
own in `realizar_operacao_ALU`; they are the codes whose result is not `0` for
all operands, and every other code, such as 16, yields `0` through `default`. -/
theorem alu_quinze_operacoes :
    ((List.range 64).filter (fun op => decide (op ∈ codigosALU))).length = 15 ∧
    (∀ op, op ∈ codigosALU ↔ ∃ h b, operacaoALU op h b ≠ 0) ∧
    (∀ op h b, op ∉ codigosALU → operacaoALU op h b = 0) ∧
    (∀ op, op ∈ codigosALU → op < 64) ∧
    (∀ h b, operacaoALU 16 h b = 0) := by
  refine ⟨by decide, ?_, fun op h b hop => operacaoALU_fora op h b hop, by decide, ?_⟩
  · intro op
    constructor
    · exact operacaoALU_dentro op
    · rintro ⟨h, b, hne⟩
      by_contra hop
      exact hne (operacaoALU_fora op h b hop)
  · intro h b
    exact operacaoALU_fora 16 h b (by decide)

/-- Instance of `alu_quinze_operacoes` at code 16, which has no `case`: the
result is `0` for `H = 7`, `B = 5`. -/
theorem alu_quinze_operacoes_witness :
    16 ∉ codigosALU ∧ operacaoALU 16 7 5 = 0 :=
  ⟨by decide, alu_quinze_operacoes.2.2.1 16 7 5 (by decide)⟩

/-! ## ALU inverses -/

/-- C20: for 32-bit `H` and `B`, negation and subtraction invert addition modulo
`2^32`: `op59 + H = 0`, `op59 = op26 + 1`, `op63 + H = B`, `op61 = op60 + 1`, and
operation 54 applied to the result of operation 53 returns `B`; at
`H = 0x80000000` the negation is `0x80000000`. -/
theorem alu_inversos (H B : Nat) (hH : H < 4294967296) (hB : B < 4294967296) :
    (operacaoALU 59 H B + H) % 4294967296 = 0 ∧
    operacaoALU 59 H B = (operacaoALU 26 H B + 1) % 4294967296 ∧
    (operacaoALU 63 H B + H) % 4294967296 = B ∧
    operacaoALU 61 H B = (operacaoALU 60 H B + 1) % 4294967296 ∧
    operacaoALU 54 H (operacaoALU 53 H B) = B ∧
    operacaoALU 26 H B + H = 4294967295 ∧
    (H = 2147483648 → operacaoALU 59 H B = 2147483648) := by
  rw [operacaoALU_59, operacaoALU_26, operacaoALU_63, operacaoALU_61, operacaoALU_60,
    operacaoALU_53, operacaoALU_54, paraPalavra_neg_paraInt32]
  unfold soma32 sub32 nao32
  refine ⟨?_, ?_, ?_, ?_, ?_, ?_, ?_⟩ <;> omega

/-- Instance of `alu_inversos` at `H = 0x80000000`, `B = 0`: the negation of `H`
is `H` itself and adding `H` to it gives `0` modulo `2^32`. -/
theorem alu_inversos_witness :
    (2147483648 < 4294967296 ∧ 0 < 4294967296) ∧
    operacaoALU 59 2147483648 0 = 2147483648 ∧
    (operacaoALU 59 2147483648 0 + 2147483648) % 4294967296 = 0 :=
  have h := alu_inversos 2147483648 0 (by decide) (by decide)
  ⟨⟨by decide, by decide⟩, h.2.2.2.2.2.2 rfl, h.1⟩

/-! ## Significant bits of a microinstruction -/

theorem campos_mod (w1 w2 : Nat) :
    (w1 % 16 = w2 % 16 ∧ w1 / 16 % 8 = w2 / 16 % 8 ∧ w1 / 128 % 512 = w2 / 128 % 512 ∧
      w1 / 65536 % 64 = w2 / 65536 % 64 ∧ w1 / 4194304 % 4 = w2 / 4194304 % 4 ∧
      w1 / 16777216 % 8 = w2 / 16777216 % 8 ∧
      w1 / 134217728 % 512 = w2 / 134217728 % 512) ↔
    w1 % 68719476736 = w2 % 68719476736 := by
  constructor
  · rintro ⟨h1, h2, h3, h4, h5, h6, h7⟩
    omega
  · intro h
    refine ⟨?_, ?_, ?_, ?_, ?_, ?_, ?_⟩ <;> omega

theorem campos_montar (w : Nat) :
    w % 68719476736 =
      montar (w % 16) (w / 16 % 8) (w / 128 % 512) (w / 65536 % 64) (w / 4194304 % 4)
        (w / 16777216 % 8) (w / 134217728 % 512) := by
  unfold montar
  omega

theorem montar_campos (b m c op d j n k : Nat) (hb : b < 16) (hm : m < 8) (hc : c < 512)
    (hop : op < 64) (hd : d < 4) (hj : j < 8) (hn : n < 512) :
    (montar b m c op d j n + 68719476736 * k) % 16 = b ∧
    (montar b m c op d j n + 68719476736 * k) / 16 % 8 = m ∧
    (montar b m c op d j n + 68719476736 * k) / 128 % 512 = c ∧
    (montar b m c op d j n + 68719476736 * k) / 65536 % 64 = op ∧
    (montar b m c op d j n + 68719476736 * k) / 4194304 % 4 = d ∧
    (montar b m c op d j n + 68719476736 * k) / 16777216 % 8 = j ∧
    (montar b m c op d j n + 68719476736 * k) / 134217728 % 512 = n := by
  unfold montar
  refine ⟨?_, ?_, ?_, ?_, ?_, ?_, ?_⟩ <;> omega

theorem decodificar_valores (s : Estado) (w : Nat) :
    decodificar_microinstrucao { s with MIR := w } =
      { s with
        MIR := w
        MIR_B := w % 16
        MIR_MEM := w / 16 % 8
        MIR_C := w / 128 % 512
        MIR_Operacao := w / 65536 % 64
        MIR_Deslocador := w / 4194304 % 4
        MIR_pulo := w / 16777216 % 8
        MPC := w / 134217728 % 512 } := by
  obtain ⟨c1, c2, c3, c4, c5, c6, c7⟩ := campos_lit w
  simp only [decodificar_microinstrucao, c1, c2, c3, c4, c5, c6, c7]

theorem antesDaMemoria_bits (s : Estado) (arm1 arm2 : Nat → Nat)
    (hw : arm1 s.MPC % 68719476736 = arm2 s.MPC % 68719476736) :
    antesDaMemoria { s with armazenamento := arm1 } =
      { antesDaMemoria { s with armazenamento := arm2 } with
        MIR := arm1 s.MPC, armazenamento := arm1 } := by
  obtain ⟨e1, e2, e3, e4, e5, e6, e7⟩ := (campos_mod _ _).mpr hw
  have hd : decodificar_microinstrucao
      { s with armazenamento := arm1, MIR := arm1 s.MPC } =
      { decodificar_microinstrucao { s with armazenamento := arm2, MIR := arm2 s.MPC } with
        MIR := arm1 s.MPC, armazenamento := arm1 } := by
    have d1 := decodificar_valores { s with armazenamento := arm1 } (arm1 s.MPC)
    have d2 := decodificar_valores { s with armazenamento := arm2 } (arm2 s.MPC)
    rw [d1, d2, e1, e2, e3, e4, e5, e6, e7]
  exact (congrArg (fun d => atribuir_barramento_C (realizar_operacao_ALU
    (atribuir_barramento_B d))) hd).trans rfl

/-- C16: two microinstruction words decode to the same seven fields exactly
when they agree on bits 0..35; the fields are disjoint and cover bits 0..35
(the low 36 bits are the packing of the fields, and every tuple of field values
is decoded from its packing whatever bits 36.. hold); a micro-cycle run on two
such words gives the same state, except for the variable `MIR` itself, which
holds the fetched word, and the control store it was fetched from. -/
theorem decodificacao_36_bits (s : Estado) (w1 w2 : Nat) :
    (((decodificar_microinstrucao { s with MIR := w1 }).MIR_B =
        (decodificar_microinstrucao { s with MIR := w2 }).MIR_B ∧
      (decodificar_microinstrucao { s with MIR := w1 }).MIR_MEM =
        (decodificar_microinstrucao { s with MIR := w2 }).MIR_MEM ∧
      (decodificar_microinstrucao { s with MIR := w1 }).MIR_C =
        (decodificar_microinstrucao { s with MIR := w2 }).MIR_C ∧
      (decodificar_microinstrucao { s with MIR := w1 }).MIR_Operacao =
        (decodificar_microinstrucao { s with MIR := w2 }).MIR_Operacao ∧
      (decodificar_microinstrucao { s with MIR := w1 }).MIR_Deslocador =
        (decodificar_microinstrucao { s with MIR := w2 }).MIR_Deslocador ∧
      (decodificar_microinstrucao { s with MIR := w1 }).MIR_pulo =
        (decodificar_microinstrucao { s with MIR := w2 }).MIR_pulo ∧
      (decodificar_microinstrucao { s with MIR := w1 }).MPC =
        (decodificar_microinstrucao { s with MIR := w2 }).MPC) ↔
      w1 % 68719476736 = w2 % 68719476736) ∧
    w1 % 68719476736 =
      montar (decodificar_microinstrucao { s with MIR := w1 }).MIR_B (decodificar_microinstrucao { s with MIR := w1 }).MIR_MEM (decodificar_microinstrucao { s with MIR := w1 }).MIR_C
        (decodificar_microinstrucao { s with MIR := w1 }).MIR_Operacao (decodificar_microinstrucao { s with MIR := w1 }).MIR_Deslocador
        (decodificar_microinstrucao { s with MIR := w1 }).MIR_pulo (decodificar_microinstrucao { s with MIR := w1 }).MPC ∧
    (∀ b m c op d j n k, b < 16 → m < 8 → c < 512 → op < 64 → d < 4 → j < 8 → n < 512 →
      (decodificar_microinstrucao
        { s with MIR := montar b m c op d j n + 68719476736 * k }).MIR_B = b ∧
      (decodificar_microinstrucao
        { s with MIR := montar b m c op d j n + 68719476736 * k }).MIR_MEM = m ∧
      (decodificar_microinstrucao
        { s with MIR := montar b m c op d j n + 68719476736 * k }).MIR_C = c ∧
      (decodificar_microinstrucao
        { s with MIR := montar b m c op d j n + 68719476736 * k }).MIR_Operacao = op ∧
      (decodificar_microinstrucao
        { s with MIR := montar b m c op d j n + 68719476736 * k }).MIR_Deslocador = d ∧
      (decodificar_microinstrucao
        { s with MIR := montar b m c op d j n + 68719476736 * k }).MIR_pulo = j ∧
      (decodificar_microinstrucao
        { s with MIR := montar b m c op d j n + 68719476736 * k }).MPC = n) ∧
    (∀ (o : Ordem) (arm1 arm2 : Nat → Nat) (t1 : Estado),
      arm1 s.MPC % 68719476736 = arm2 s.MPC % 68719476736 →
      ciclo o { s with armazenamento := arm1 } = some t1 →
      ∃ t2, ciclo o { s with armazenamento := arm2 } = some t2 ∧
        t1 = { t2 with MIR := arm1 s.MPC, armazenamento := arm1 }) := by
  refine ⟨?_, ?_, ?_, ?_⟩
  · rw [decodificar_valores, decodificar_valores]
    exact campos_mod w1 w2
  · rw [decodificar_valores]
    exact campos_montar w1
  · intro b m c op d j n k hb hm hc hop hd hj hn
    rw [decodificar_valores]
    exact montar_campos b m c op d j n k hb hm hc hop hd hj hn
  · intro o arm1 arm2 t1 hw h1
    obtain ⟨hc, rfl⟩ := (ciclo_iff o _ t1).mp h1
    have hu := antesDaMemoria_bits s arm1 arm2 hw
    refine ⟨pular (aposMemoria o (antesDaMemoria { s with armazenamento := arm2 })),
      (ciclo_iff o _ _).mpr ⟨?_, rfl⟩, ?_⟩
    · rw [hu] at hc
      exact hc
    · rw [hu]
      rfl

/-- Instance of `decodificacao_36_bits` at `estadoExemplo`: the control store
whose words have bit 36 set in addition gives the same cycle, `H = 13` and
`MPC = 261`. -/
theorem decodificacao_36_bits_witness :
    ∃ t2, ciclo Ordem.little
        { estadoExemplo with
          armazenamento := fun _ => montar 0 0 256 61 0 1 5 + 68719476736 } = some t2 ∧
      pular (aposMemoria Ordem.little (antesDaMemoria estadoExemplo)) =
        { t2 with MIR := estadoExemplo.armazenamento estadoExemplo.MPC,
                  armazenamento := estadoExemplo.armazenamento } :=
  (decodificacao_36_bits estadoExemplo 0 0).2.2.2 Ordem.little
    estadoExemplo.armazenamento (fun _ => montar 0 0 256 61 0 1 5 + 68719476736)
    (pular (aposMemoria Ordem.little (antesDaMemoria estadoExemplo))) (by decide)
    ((ciclo_iff Ordem.little estadoExemplo _).mpr
      ⟨⟨by decide, by decide, by decide, by decide⟩, rfl⟩)

/-! ## Jump on both flags -/

theorem or_256_eq (n : Nat) (h : n.testBit 8 = true) : n ||| 256 = n := by
  apply Nat.eq_of_testBit_eq
  intro i
  have e : (256 : Nat) = 2 ^ 8 := rfl
  rw [Nat.testBit_or, e, Nat.testBit_two_pow]
  by_cases hi : 8 = i
  · subst hi
    simp [h]
  · simp [hi]

theorem ciclo_MPC (o : Ordem) (s t : Estado) (h : ciclo o s = some t) :
    t.MPC = s.armazenamento s.MPC / 134217728 % 512
        ||| (if (s.armazenamento s.MPC / 16777216 % 8).testBit 0 = true ∧ t.N = 1
          then 256 else 0)
        ||| (if (s.armazenamento s.MPC / 16777216 % 8).testBit 1 = true ∧ t.Z = 1
          then 256 else 0)
        ||| (if (s.armazenamento s.MPC / 16777216 % 8).testBit 2 = true
          then t.MBR else 0) ∧
    (t.N = 1 ∧ t.Z = 0 ∨ t.N = 0 ∧ t.Z = 1) := by
  obtain ⟨_, rfl⟩ := (ciclo_iff o s t).mp h
  obtain ⟨c1, c2, c3, c4, c5, c6, c7⟩ := campos_lit (s.armazenamento s.MPC)
  obtain ⟨hN, hZ⟩ := antesDaMemoria_flags s
  constructor
  · rw [pular_MPC (aposMemoria o (antesDaMemoria s)) hN hZ]
    simp only [pular, aposMemoria, antesDaMemoria, atribuir_barramento_C,
      realizar_operacao_ALU, atribuir_barramento_B, decodificar_microinstrucao, c2, c6, c7,
      and_1_ne_zero]
  · have eN : (pular (aposMemoria o (antesDaMemoria s))).N =
        if operacaoALU (antesDaMemoria s).MIR_Operacao s.H
          (antesDaMemoria s).barramento_B = 0 then 0 else 1 := rfl
    have eZ : (pular (aposMemoria o (antesDaMemoria s))).Z =
        if operacaoALU (antesDaMemoria s).MIR_Operacao s.H
          (antesDaMemoria s).barramento_B = 0 then 1 else 0 := rfl
    rw [eN, eZ]
    by_cases hr : operacaoALU (antesDaMemoria s).MIR_Operacao s.H
        (antesDaMemoria s).barramento_B = 0
    · right
      rw [if_pos hr, if_pos hr]
      exact ⟨rfl, rfl⟩
    · left
      rw [if_neg hr, if_neg hr]
      exact ⟨rfl, rfl⟩

/-- C19: after a micro-cycle exactly one of `N`, `Z` is `1`, so a
microinstruction whose jump field has bits 0 and 1 both set leaves `MPC` with
bit 8 set (`MPC ≥ 256`) whatever the ALU result is; and when `next_addr` already
has bit 8 set, the resolved address is `next_addr OR (MBR if jump bit 2)`,
independent of jump bits 0 and 1. -/
theorem salto_N_e_Z (o : Ordem) (s t : Estado) (h : ciclo o s = some t) :
    (t.N = 1 ∧ t.Z = 0 ∨ t.N = 0 ∧ t.Z = 1) ∧
    ((s.armazenamento s.MPC / 16777216 % 8).testBit 0 = true →
      (s.armazenamento s.MPC / 16777216 % 8).testBit 1 = true →
      t.MPC.testBit 8 = true ∧ 256 ≤ t.MPC) ∧
    ((s.armazenamento s.MPC / 134217728 % 512).testBit 8 = true →
      t.MPC = s.armazenamento s.MPC / 134217728 % 512
        ||| (if (s.armazenamento s.MPC / 16777216 % 8).testBit 2 = true
          then t.MBR else 0)) := by
  obtain ⟨hM, hf⟩ := ciclo_MPC o s t h
  have b256 : Nat.testBit 256 8 = true := by decide
  refine ⟨hf, ?_, ?_⟩
  · intro j0 j1
    have hb : t.MPC.testBit 8 = true := by
      rw [hM]
      simp only [Nat.testBit_or]
      rcases hf with ⟨hn, _⟩ | ⟨_, hz⟩
      · have hc : (s.armazenamento s.MPC / 16777216 % 8).testBit 0 = true ∧ t.N = 1 :=
          ⟨j0, hn⟩
        rw [if_pos hc, b256]
        simp
      · have hc : (s.armazenamento s.MPC / 16777216 % 8).testBit 1 = true ∧ t.Z = 1 :=
          ⟨j1, hz⟩
        rw [if_pos hc, b256]
        simp
    have hge := Nat.testBit_implies_ge hb
    exact ⟨hb, hge⟩
  · intro h8
    rw [hM]
    have e0 : ∀ c : Prop, [Decidable c] →
        (s.armazenamento s.MPC / 134217728 % 512 ||| if c then 256 else 0) =
          s.armazenamento s.MPC / 134217728 % 512 := by
      intro c _
      split
      · exact or_256_eq _ h8
      · exact Nat.or_zero _
    rw [e0, e0]

/-- Instance of `salto_N_e_Z` at `estadoExemplo` with the jump field set to `3`
(N and Z) and next address 5: the cycle ends at `MPC ≥ 256`. -/
theorem salto_N_e_Z_witness :
    ciclo Ordem.little { estadoExemplo with armazenamento := fun _ => montar 0 0 256 61 0 3 5 }
      = some (pular (aposMemoria Ordem.little (antesDaMemoria
          { estadoExemplo with armazenamento := fun _ => montar 0 0 256 61 0 3 5 }))) ∧
    256 ≤ (pular (aposMemoria Ordem.little (antesDaMemoria
          { estadoExemplo with armazenamento := fun _ => montar 0 0 256 61 0 3 5 }))).MPC :=
  have h : ciclo Ordem.little
      { estadoExemplo with armazenamento := fun _ => montar 0 0 256 61 0 3 5 }
      = some (pular (aposMemoria Ordem.little (antesDaMemoria
          { estadoExemplo with armazenamento := fun _ => montar 0 0 256 61 0 3 5 }))) :=
    (ciclo_iff Ordem.little _ _).mpr ⟨⟨by decide, by decide, by decide, by decide⟩, rfl⟩
  ⟨h, ((salto_N_e_Z Ordem.little _ _ h).2.1 (by decide) (by decide)).2⟩

end Mic1
